import Mathlib

/-!
# Haris: manifest renderer and channel resolver

A shallow embedding of the two scripts of the repository:

* `scripts/resolve_youtube_channel.js`, the command-line resolver that patches
  the manifest (`categories.json`);
* `assets/js/site.js`, the browser script that renders the manifest.

JavaScript values that are "a string or absent" are `Option String`; JS
truthiness is `truthy`.  Strings are compared by Unicode scalar values.  The
platform's `URL` constructor, `encodeURIComponent` and `toUpperCase` are not part
of the repository and are taken as parameters (`Platform`); the network, the file
system and the JSON functions are the fields of `Env`.  The concrete platform
`samplePlatform` serves only to evaluate the scripts on the example inputs.
-/

namespace Haris

/-! ## JavaScript values and strings -/

/-- JS truthiness of a value that is absent or a string: the empty string is falsy. -/
def truthy : Option String → Bool
  | none => false
  | some s => decide (s ≠ "")

/-- The JS expression `a || b` on values that are absent or strings. -/
def jsOr (a b : Option String) : Option String :=
  if truthy a then a else b

/-- The JS expression `a || b` where `b` is a string literal. -/
def jsOrStr (a : Option String) (b : String) : String :=
  match a with
  | some s => if truthy (some s) then s else b
  | none => b

/-- The JS result of `s.replace(/\/+$/, '')`: the trailing run of slashes is removed. -/
def stripTrailingSlashes (s : String) : String :=
  ⟨(s.data.reverse.dropWhile (fun c => c == '/')).reverse⟩

/-- Whether `pat` is an initial segment of `text`. -/
def startsWithChars : List Char → List Char → Bool
  | [], _ => true
  | _ :: _, [] => false
  | p :: ps, c :: cs => p == c && startsWithChars ps cs

/-- Whether `pat` occurs somewhere in `text` (JS `includes`, or a regex of literal characters). -/
def includesChars (pat : List Char) : List Char → Bool
  | [] => startsWithChars pat []
  | c :: cs => startsWithChars pat (c :: cs) || includesChars pat cs

/-- Splits a list of characters on the separator `sep` (JS `split`). -/
def splitOnChar (sep : Char) : List Char → List (List Char)
  | [] => [[]]
  | c :: cs =>
    match splitOnChar sep cs with
    | [] => [[c]]
    | seg :: segs => if c == sep then [] :: seg :: segs else (c :: seg) :: segs

/-! ## The platform -/

/-- What the scripts read of a parsed `URL` object. -/
structure URL where
  origin : String
  hostname : String
  pathname : String
  searchParams : List (String × String)
deriving DecidableEq, Repr

/-- The platform functions the scripts call: `new URL(u)` (`none` when it throws),
`encodeURIComponent` and `String.prototype.toUpperCase`. -/
structure Platform where
  parseURL : String → Option URL
  encodeURIComponent : String → String
  toUpperCase : String → String

/-- The call `u.searchParams.get(name)`: the first value under `name`, or null. -/
def searchGet (u : URL) (name : String) : Option String :=
  (u.searchParams.find? (fun kv => kv.1 == name)).map (fun kv => kv.2)

/-! ## The manifest -/

/-- A manifest item, as far as the two scripts read or write it. -/
structure Item where
  title : Option String := none
  url : Option String := none
  type : Option String := none
  site : Option String := none
  thumbnail : Option String := none
  avatarUrl : Option String := none
  description : Option String := none
  playlist : Option String := none
  embedUrl : Option String := none
  embed : Option Bool := none
deriving DecidableEq, Repr

/-- A manifest category; `items = none` when `items` is not an array. -/
structure Category where
  id : Option String := none
  title : Option String := none
  items : Option (List Item) := none
deriving DecidableEq, Repr

/-- A static sub-site entry of the manifest. -/
structure Site where
  path : Option String := none
  title : Option String := none
  name : Option String := none
  description : Option String := none
deriving DecidableEq, Repr

/-- The manifest document; `categories = none` when `categories` is not an array. -/
structure Manifest where
  sites : Option (List Site) := none
  categories : Option (List Category) := none
deriving DecidableEq, Repr

/-! ## The resolver: `normalizeUrl` and the manifest update -/

/-- The function `normalizeUrl` of `resolve_youtube_channel.js`. -/
def normalizeUrl (pf : Platform) (u : String) : String :=
  match pf.parseURL u with
  | some x => x.origin ++ stripTrailingSlashes x.pathname
  | none => stripTrailingSlashes u

/-- The `url` fields of the three thumbnail sizes of an API snippet, each absent when
the size or its url is. -/
structure Thumbnails where
  high : Option String := none
  medium : Option String := none
  default : Option String := none
deriving DecidableEq, Repr

/-- The four variables `main` resolves before it touches the manifest. -/
structure Resolved where
  apiChannelId : Option String := none
  apiTitle : Option String := none
  apiThumbnails : Option Thumbnails := none
  uploadsPlaylist : Option String := none
deriving DecidableEq, Repr

/-- The playlist embed link written next to `playlist`. -/
def embedUrlOf (uploadsPlaylist : String) : String :=
  "https://www.youtube.com/embed?listType=playlist&list=" ++ uploadsPlaylist

/-- The assignments of one matching block of the loop: title, avatar, playlist and
embed link, each only when the resolved value is truthy. -/
def applyResolved (r : Resolved) (it : Item) : Item :=
  let it1 := if truthy r.apiTitle then { it with title := r.apiTitle } else it
  let it2 := match r.apiThumbnails with
    | some t => { it1 with avatarUrl := jsOr t.high (jsOr t.medium (jsOr t.default it1.avatarUrl)) }
    | none => it1
  match r.uploadsPlaylist with
  | some pl => if truthy (some pl) then { it2 with playlist := some pl, embedUrl := some (embedUrlOf pl) } else it2
  | none => it2

/-- The condition `it.url && normalizeUrl(it.url) === wantUrl`. -/
def urlMatches (pf : Platform) (wantUrl : String) (it : Item) : Bool :=
  match it.url with
  | some u => truthy (some u) && normalizeUrl pf u == wantUrl
  | none => false

/-- The test `/progamer/i.test(s)`: without the `u` flag, case folding never maps a
non-ASCII character to an ASCII one, so this is ASCII case-insensitive containment. -/
def progamerTest (s : String) : Bool :=
  includesChars "progamer".data (s.data.map Char.toLower)

/-- The condition `it.title && /progamer/i.test(it.title)`. -/
def titleHasMarker (it : Item) : Bool :=
  match it.title with
  | some t => truthy (some t) && progamerTest t
  | none => false

/-- The body of the inner `for` loop on one item, entered with `updated = false`:
the item afterwards and the value of `updated`. -/
def visitItem (pf : Platform) (wantUrl : String) (r : Resolved) (it : Item) : Item × Bool :=
  if it.type ≠ some "channel" then (it, false)
  else
    let s1 : Item × Bool :=
      if urlMatches pf wantUrl it then (applyResolved r it, truthy r.uploadsPlaylist) else (it, false)
    if !s1.2 && titleHasMarker s1.1 then (applyResolved r s1.1, truthy r.uploadsPlaylist) else s1

/-- The inner `for` loop over one category's items, with its `break`. -/
def visitItems (pf : Platform) (wantUrl : String) (r : Resolved) : List Item → List Item × Bool
  | [] => ([], false)
  | it :: rest =>
    let v := visitItem pf wantUrl r it
    if v.2 then (v.1 :: rest, true)
    else
      let w := visitItems pf wantUrl r rest
      (v.1 :: w.1, w.2)

/-- The outer `for` loop over the categories, with its `continue` and `break`. -/
def visitCategories (pf : Platform) (wantUrl : String) (r : Resolved) :
    List Category → List Category × Bool
  | [] => ([], false)
  | cat :: rest =>
    match cat.items with
    | none =>
      let w := visitCategories pf wantUrl r rest
      (cat :: w.1, w.2)
    | some items =>
      let v := visitItems pf wantUrl r items
      if v.2 then ({ cat with items := some v.1 } :: rest, true)
      else
        let w := visitCategories pf wantUrl r rest
        ({ cat with items := some v.1 } :: w.1, w.2)

/-- The match loop of `main` (lines 178-208): the manifest afterwards and `updated`. -/
def matchLoop (pf : Platform) (channelUrl : String) (r : Resolved) (m : Manifest) : Manifest × Bool :=
  match m.categories with
  | some cats =>
    let w := visitCategories pf (normalizeUrl pf channelUrl) r cats
    ({ m with categories := some w.1 }, w.2)
  | none => (m, false)

/-- The item the append step builds. -/
def newItem (channelUrl : String) (r : Resolved) : Item :=
  { title := jsOr r.apiTitle (some "ProGamer channel")
    url := some channelUrl
    embed := some false
    type := some "channel"
    site := some "harisatif"
    avatarUrl := match r.apiThumbnails with
      | some t => jsOr t.high (jsOr t.medium t.default)
      | none => none
    playlist := if truthy r.uploadsPlaylist then r.uploadsPlaylist else none
    embedUrl := match r.uploadsPlaylist with
      | some pl => if truthy (some pl) then some (embedUrlOf pl) else none
      | none => none }

/-- The category the append step creates when the manifest has none. -/
def channelsCategory : Category :=
  { id := some "channels", title := some "Channels", items := some [] }

/-- The append step of `main` (lines 211-220). -/
def appendStep (channelUrl : String) (r : Resolved) (m : Manifest) : Manifest :=
  let cats0 := m.categories.getD []
  let cats1 := if cats0.length = 0 then cats0 ++ [channelsCategory] else cats0
  match cats1 with
  | [] => { m with categories := some [] }
  | c :: cs =>
    { m with categories := some ({ c with items := some (c.items.getD [] ++ [newItem channelUrl r]) } :: cs) }

/-- The manifest update of `main` (lines 178-222): the match loop followed by the
append step; the manifest afterwards and `updated`. -/
def updateManifest (pf : Platform) (channelUrl : String) (r : Resolved) (m : Manifest) :
    Manifest × Bool :=
  let w := matchLoop pf channelUrl r m
  if !w.2 then (appendStep channelUrl r w.1, true) else w

/-! ## The resolver: `main` -/

/-- The character class `[a-zA-Z0-9_-]`. -/
def isFlagNameChar (c : Char) : Bool :=
  c.isAlphanum || c == '_' || c == '-'

/-- The characters `.` does not match in a regex without the `s` flag. -/
def isLineTerminator (c : Char) : Bool :=
  c == '\n' || c == '\r' || c == Char.ofNat 0x2028 || c == Char.ofNat 0x2029

/-- The match `a.match(/^--([a-zA-Z0-9_-]+)=(.*)$/)`: the two groups, or `none`. The name
is the longest run of name characters (the `=` that must follow is not one), and the
value runs to the end of the argument and holds no line terminator. -/
def matchFlag (a : String) : Option (String × String) :=
  match a.data with
  | '-' :: '-' :: rest =>
    match rest.dropWhile isFlagNameChar with
    | '=' :: value =>
      if rest.takeWhile isFlagNameChar ≠ [] ∧ value.all (fun c => !isLineTerminator c) then
        some (⟨rest.takeWhile isFlagNameChar⟩, ⟨value⟩)
      else none
    | _ => none
  | _ => none

/-- The property `opts[name]` after the `forEach` over the arguments: the value of the
last argument that sets it. -/
def optsGet (argv : List String) (name : String) : Option String :=
  ((argv.filterMap matchFlag).reverse.find? (fun kv => kv.1 == name)).map (fun kv => kv.2)

/-- The `snippet` of a channel resource of the API. -/
structure Snippet where
  title : Option String := none
  thumbnails : Option Thumbnails := none
deriving DecidableEq, Repr

/-- A channel resource of the API: `id`, `snippet`, and
`contentDetails.relatedPlaylists.uploads` (absent when a step of that path is). -/
structure ChannelResource where
  id : Option String := none
  snippet : Option Snippet := none
  uploads : Option String := none
deriving DecidableEq, Repr

/-- The JSON of a `channels` response; `items = none` when `items` is not an array. -/
structure ChannelsResponse where
  items : Option (List ChannelResource) := none
deriving DecidableEq, Repr

/-- The JSON of a `search` response: for each item its `id.channelId` (absent when a step
of that path is). -/
structure SearchResponse where
  items : Option (List (Option String)) := none
deriving DecidableEq, Repr

/-- The network as `main` sees it, by request URL: the parsed JSON of the two API
endpoints (`none` for a JSON `null`) and the text of a page; an error when `fetch`
rejects, the status is not ok, or the body is not JSON. -/
structure Network where
  channels : String → Except String (Option ChannelsResponse)
  search : String → Except String (Option SearchResponse)
  page : String → Except String String

/-- The request URL of `fetchChannelById`. -/
def channelByIdUrl (pf : Platform) (apiKey id : String) : String :=
  "https://www.googleapis.com/youtube/v3/channels?part=snippet,contentDetails&id="
    ++ pf.encodeURIComponent id ++ "&key=" ++ pf.encodeURIComponent apiKey

/-- The request URL of `fetchChannelByUsername`. -/
def channelByUsernameUrl (pf : Platform) (apiKey username : String) : String :=
  "https://www.googleapis.com/youtube/v3/channels?part=snippet,contentDetails&forUsername="
    ++ pf.encodeURIComponent username ++ "&key=" ++ pf.encodeURIComponent apiKey

/-- The request URL of `searchChannel`. -/
def searchChannelUrl (pf : Platform) (apiKey q : String) : String :=
  "https://www.googleapis.com/youtube/v3/search?part=snippet&type=channel&q="
    ++ pf.encodeURIComponent q ++ "&key=" ++ pf.encodeURIComponent apiKey ++ "&maxResults=1"

/-- The variables `apiChannelId` and `apiRes` inside the `try` block. -/
structure ApiProgress where
  apiChannelId : Option String := none
  apiRes : Option ChannelsResponse := none
deriving DecidableEq, Repr

/-- The value `s.items[0].id.channelId` when the guard of line 109 (and 118) holds. -/
def firstChannelId (s : Option SearchResponse) : Option String :=
  match s with
  | some { items := some (some cid :: _) } => if truthy (some cid) then some cid else none
  | _ => none

/-- A search followed by a fetch by id (lines 108-112 and 117-121); an error carries the
variables as they stand when the exception is thrown. -/
def searchThenFetch (pf : Platform) (net : Network) (apiKey q : String) (st : ApiProgress) :
    Except ApiProgress ApiProgress :=
  match net.search (searchChannelUrl pf apiKey q) with
  | .error _ => .error st
  | .ok s =>
    match firstChannelId s with
    | some cid =>
      match net.channels (channelByIdUrl pf apiKey cid) with
      | .error _ => .error { st with apiChannelId := some cid }
      | .ok res => .ok { apiChannelId := some cid, apiRes := res }
    | none => .ok st

/-- The API path of `main` (lines 61-140), entered with all four variables null. -/
def apiPhase (pf : Platform) (net : Network) (apiKey : String) (parsedUrl : URL) : Resolved :=
  let p := stripTrailingSlashes parsedUrl.pathname
  let segs := (splitOnChar '/' p.data).filter (fun seg => seg ≠ [])
  let possibleId : Option String :=
    if segs.get? 0 = some "channel".data then (segs.get? 1).map String.mk else none
  let possibleUser : Option String :=
    if segs.get? 0 = some "user".data then (segs.get? 1).map String.mk else none
  let possibleHandle : Option String :=
    match segs.get? 0 with
    | some ('@' :: handle) => some ⟨handle⟩
    | _ => none
  let first : Except ApiProgress ApiProgress :=
    match possibleId with
    | some id =>
      match net.channels (channelByIdUrl pf apiKey id) with
      | .error _ => .error {}
      | .ok res => .ok { apiRes := res }
    | none =>
      match possibleUser with
      | some user =>
        match net.channels (channelByUsernameUrl pf apiKey user) with
        | .error _ => .error {}
        | .ok res =>
          .ok { apiRes := match res with
            | some { items := some [] } => none
            | other => other }
      | none => .ok {}
  let second : Except ApiProgress ApiProgress :=
    match first with
    | .error st => .error st
    | .ok st =>
      if st.apiRes.isNone && truthy possibleHandle then
        searchThenFetch pf net apiKey (possibleHandle.getD "") st
      else .ok st
  let third : Except ApiProgress ApiProgress :=
    match second with
    | .error st => .error st
    | .ok st =>
      if st.apiRes.isNone then
        searchThenFetch pf net apiKey (if p ≠ "" then p else parsedUrl.hostname) st
      else .ok st
  match third with
  | .error st => { apiChannelId := st.apiChannelId }
  | .ok st =>
    match st.apiRes with
    | some { items := some (it :: _) } =>
      { apiChannelId := jsOr it.id st.apiChannelId
        apiTitle := it.snippet.bind (fun sn => sn.title)
        apiThumbnails := it.snippet.bind (fun sn => sn.thumbnails)
        uploadsPlaylist := if truthy it.uploads then it.uploads else none }
    | _ => { apiChannelId := st.apiChannelId }

/-- The character class `\s` of a JS regex. -/
def isJsWhitespace (c : Char) : Bool :=
  c == '\t' || c == '\n' || c == Char.ofNat 0x0B || c == Char.ofNat 0x0C || c == '\r' ||
  c == ' ' || c == Char.ofNat 0xA0 || c == Char.ofNat 0x1680 ||
  (0x2000 ≤ c.toNat && c.toNat ≤ 0x200A) || c == Char.ofNat 0x2028 ||
  c == Char.ofNat 0x2029 || c == Char.ofNat 0x202F || c == Char.ofNat 0x205F ||
  c == Char.ofNat 0x3000 || c == Char.ofNat 0xFEFF

/-- A match of `key\s*:\s*"(UC[^"]+)"` at the start of `s`, `key` being the quoted field
name: the captured group. Each greedy run is followed by a character outside its class,
so the match, when there is one, is the greedy one. -/
def matchIdAt (key : List Char) (s : List Char) : Option (List Char) :=
  if startsWithChars key s then
    match (s.drop key.length).dropWhile isJsWhitespace with
    | ':' :: r1 =>
      match r1.dropWhile isJsWhitespace with
      | '"' :: 'U' :: 'C' :: r2 =>
        match r2.dropWhile (fun c => c != '"') with
        | '"' :: _ =>
          if r2.takeWhile (fun c => c != '"') ≠ [] then
            some ('U' :: 'C' :: r2.takeWhile (fun c => c != '"'))
          else none
        | _ => none
      | _ => none
    | _ => none
  else none

/-- The result of `html.match(/key\s*:\s*"(UC[^"]+)"/)`: the group of the leftmost match. -/
def searchId (key : List Char) : List Char → Option (List Char)
  | [] => none
  | c :: cs =>
    match matchIdAt key (c :: cs) with
    | some id => some id
    | none => searchId key cs

/-- The quoted field name of the first pattern. -/
def channelIdKey : List Char := "\"channelId\"".data

/-- The quoted field name of the second pattern. -/
def externalIdKey : List Char := "\"externalId\"".data

/-- The HTML-scraping step of `main` on the fetched markup (lines 156-170). -/
def scrapeStep (html : String) (r : Resolved) : Resolved :=
  match (searchId channelIdKey html.data).orElse (fun _ => searchId externalIdKey html.data) with
  | none => r
  | some id =>
    let channelId : String := ⟨id⟩
    let r1 : Resolved :=
      if truthy (some channelId) && startsWithChars "UC".data channelId.data then
        { r with uploadsPlaylist := some ("UU" ++ ⟨channelId.data.drop 2⟩) }
      else r
    if !truthy r1.apiChannelId then { r1 with apiChannelId := some channelId } else r1

/-- A file-system call of `main`. -/
inductive FsOp where
  | existsSync (path : String)
  | readFileSync (path : String)
  | writeFileSync (path : String) (text : String)
deriving DecidableEq, Repr

/-- What a run of `main` is given: the arguments, the two environment variables, whether
a global `fetch` exists, `path.resolve`, the files by path, `JSON.parse` (`none` when it
throws) and `JSON.stringify(data, null, 2)`, the network and the platform. -/
structure Env where
  argv : List String
  envYoutubeApiKey : Option String := none
  envYtApiKey : Option String := none
  hasFetch : Bool := true
  resolve : String → String
  files : String → Option String
  parseJSON : String → Option Manifest
  stringify : Manifest → String
  net : Network
  pf : Platform

/-- How a run of `main` ends: the exit code and the file-system calls it made, in order. -/
structure Outcome where
  exitCode : Nat
  fsOps : List FsOp
deriving DecidableEq, Repr

/-- The constant `apiKey` of `main`: the first truthy one of the three flags and the two
environment variables. -/
def apiKeyOf (env : Env) : Option String :=
  jsOr (optsGet env.argv "apiKey") (jsOr (optsGet env.argv "apikey")
    (jsOr (optsGet env.argv "key") (jsOr env.envYoutubeApiKey env.envYtApiKey)))

/-- The four variables after the API path: as the API path leaves them when there is an
API key, all null otherwise. -/
def apiResolved (env : Env) (parsedUrl : URL) : Resolved :=
  if truthy (apiKeyOf env) then apiPhase env.pf env.net ((apiKeyOf env).getD "") parsedUrl
  else {}

/-- The function `main` of `resolve_youtube_channel.js`. -/
def main (env : Env) : Outcome :=
  let channel := optsGet env.argv "channel"
  let file := optsGet env.argv "file"
  if !truthy channel || !truthy file then { exitCode := 1, fsOps := [] }
  else
    let channelUrl := channel.getD ""
    let jsonPath := env.resolve (file.getD "")
    match env.files jsonPath with
    | none => { exitCode := 2, fsOps := [FsOp.existsSync jsonPath] }
    | some jsonText =>
      if !env.hasFetch then { exitCode := 3, fsOps := [FsOp.existsSync jsonPath] }
      else
        match env.pf.parseURL channelUrl with
        | none => { exitCode := 4, fsOps := [FsOp.existsSync jsonPath] }
        | some parsedUrl =>
          let r0 : Resolved := apiResolved env parsedUrl
          let scraped : Except String Resolved :=
            if !truthy r0.uploadsPlaylist then
              match env.net.page channelUrl with
              | .error e => .error e
              | .ok html => .ok (scrapeStep html r0)
            else .ok r0
          match scraped with
          | .error _ => { exitCode := 4, fsOps := [FsOp.existsSync jsonPath] }
          | .ok r =>
            match env.parseJSON jsonText with
            | none =>
              { exitCode := 6
                fsOps := [FsOp.existsSync jsonPath, FsOp.readFileSync jsonPath] }
            | some data =>
              let w := updateManifest env.pf channelUrl r data
              if w.2 then
                { exitCode := 0
                  fsOps := [FsOp.existsSync jsonPath, FsOp.readFileSync jsonPath,
                    FsOp.writeFileSync jsonPath (env.stringify w.1)] }
              else
                { exitCode := 7
                  fsOps := [FsOp.existsSync jsonPath, FsOp.readFileSync jsonPath] }

/-! ## The renderer: preview images -/

/-- The function `getYouTubeId` of `site.js`; `none` is the JS `null`. -/
def getYouTubeId (pf : Platform) (url : String) : Option String :=
  match pf.parseURL url with
  | none => none
  | some u =>
    if includesChars "youtube.com".data u.hostname.data then
      if truthy (searchGet u "v") then searchGet u "v"
      else if startsWithChars "/shorts/".data u.pathname.data then
        some ⟨(splitOnChar '/' u.pathname.data).getLast?.getD []⟩
      else none
    else if u.hostname = "youtu.be" then some ⟨u.pathname.data.drop 1⟩
    else none

/-- The function `getYouTubeThumbnail` of `site.js`; a null argument is converted to the
string `null` by `encodeURIComponent`. -/
def getYouTubeThumbnail (pf : Platform) (videoId : Option String) : String :=
  "https://img.youtube.com/vi/" ++ pf.encodeURIComponent (videoId.getD "null") ++ "/hqdefault.jpg"

/-! ## The renderer: the page and the render functions -/

/-- An `option` element: the values assigned to `value` and `textContent`. -/
structure SelectOption where
  value : Option String
  textContent : Option String
deriving DecidableEq, Repr

/-- The `#category-select` dropdown (a single-selection `select`): its options, the value
of the selected option, and the number of `change` listeners attached. -/
structure Select where
  options : List SelectOption := []
  value : Option String := none
  changeListeners : Nat := 0
deriving DecidableEq, Repr

/-- A category card: the thumbnail's `alt` and `src`, whether the grey placeholder
background is set, the `href` of both links, the title link's text and the type label. -/
structure Card where
  alt : String
  src : String
  placeholder : Bool
  href : String
  text : Option String
  subtype : String
deriving DecidableEq, Repr

/-- The channel banner: the avatar image (`src`, `alt`) or the initial-letter fallback,
title, description, the URL the button opens and the link's `href`. -/
structure Banner where
  avatarSrc : Option String
  avatarAlt : Option String
  avatarText : Option String
  title : String
  desc : String
  openUrl : Option String
  href : Option String
deriving DecidableEq, Repr

/-- What the script puts into a container. -/
inductive Node where
  | text (s : String)
  | paragraph (className : String) (textContent : String)
  | card (c : Card)
  | banner (b : Banner)
deriving DecidableEq, Repr

/-- The page: `location.pathname`, the elements the script looks up by id (`none` when
the page has no such element; a container is the list of its children), and the global
`_CURRENT_CHANNEL_ITEM`. -/
structure Page where
  pathname : String := "/"
  categories : Option (List Node) := none
  categorySelect : Option Select := none
  reloadListeners : Option Nat := none
  channelEmbedContainer : Option (List Node) := none
  channelBannerContainer : Option (List Node) := none
  currentChannelItem : Option Item := none
deriving DecidableEq, Repr

/-- The function `renderCategoryDropdown` of `site.js`. -/
def renderCategoryDropdown (categories : List Category) (page : Page) : Page :=
  match page.categorySelect with
  | none => page
  | some sel =>
    let options : List SelectOption :=
      categories.map (fun cat => { value := cat.id, textContent := jsOr cat.title cat.id })
    { page with
      categorySelect := some
        { options := options
          value := options.head?.bind (fun o => o.value)
          changeListeners := sel.changeListeners + 1 }
      reloadListeners := page.reloadListeners.map (fun n => n + 1) }

/-- The function `getCurrentSiteName` of `site.js`, on `location.pathname`. -/
def getCurrentSiteName (pathname : String) : Option String :=
  let parts := (splitOnChar '/' pathname.data).filter (fun seg => seg ≠ [])
  let idx := parts.indexOf "sites".data
  if idx < parts.length ∧ parts.length > idx + 1 then (parts.get? (idx + 1)).map String.mk
  else none

/-- The guard of `showCategory`'s loop: `item.site && currentSite && item.site !== currentSite`. -/
def skippedForSite (currentSite : Option String) (item : Item) : Bool :=
  truthy item.site && truthy currentSite && decide (item.site ≠ currentSite)

/-- The card `showCategory` builds for one item. -/
def cardOf (pf : Platform) (item : Item) : Card :=
  let thumbSrc0 := jsOr item.thumbnail item.avatarUrl
  let thumbSrc : Option String :=
    if !truthy thumbSrc0 && truthy item.url then
      match getYouTubeId pf (item.url.getD "") with
      | some id => if truthy (some id) then some (getYouTubeThumbnail pf (some id)) else none
      | none => none
    else if truthy thumbSrc0 then thumbSrc0 else none
  { alt := jsOrStr item.title "thumbnail"
    src := jsOrStr thumbSrc ""
    placeholder := !truthy thumbSrc
    href := jsOrStr item.url "#"
    text := jsOr item.title item.url
    subtype :=
      if item.type = some "channel" then "Channel"
      else if truthy item.url && includesChars "/shorts/".data (item.url.getD "").data then "Short"
      else "Video" }

/-- The function `showCategory` of `site.js`, with the global `PROG_DATA` as `data`. -/
def showCategory (pf : Platform) (data : Manifest) (page : Page) (catId : String) : Page :=
  let cat := (data.categories.getD []).find? (fun c => c.id == some catId)
  match page.categories with
  | none => page
  | some _ =>
    match cat with
    | none => { page with categories := some [Node.text "Category not found."] }
    | some cat =>
      let page1 : Page :=
        { page with
          categorySelect := page.categorySelect.map (fun sel =>
            { sel with
              value := if sel.options.any (fun o => o.value == some catId) then some catId
                else some "" }) }
      let currentSite := getCurrentSiteName page.pathname
      let items := cat.items.getD []
      if items.length = 0 then
        { page1 with
          categories := some [Node.paragraph "small" "No items in this category yet."] }
      else
        { page1 with
          categories := some
            ((items.filter (fun item => !skippedForSite currentSite item)).map
              (fun item => Node.card (cardOf pf item))) }

/-- The banner `renderChannelBanner` builds for an item. -/
def bannerOf (pf : Platform) (item : Item) : Banner :=
  { avatarSrc := if truthy item.avatarUrl then item.avatarUrl else none
    avatarAlt := if truthy item.avatarUrl then some (jsOrStr item.title "channel avatar") else none
    avatarText :=
      if truthy item.avatarUrl then none
      else if truthy item.title then some (pf.toUpperCase ⟨(item.title.getD "").data.take 1⟩)
      else some "C"
    title := jsOrStr item.title "Channel"
    desc := jsOrStr (jsOr item.description item.url) ""
    openUrl := item.url
    href := item.url }

/-- The condition of `tryLoadChannelEmbed`'s loop:
`it.type === 'channel' && (!it.site || !currentSite || it.site === currentSite)`. -/
def isChannelForSite (currentSite : Option String) (it : Item) : Bool :=
  decide (it.type = some "channel") &&
    (!truthy it.site || !truthy currentSite || decide (it.site = currentSite))

/-- The two nested loops of `tryLoadChannelEmbed`, with their `break`s. -/
def findChannelItem (currentSite : Option String) : List Category → Option Item
  | [] => none
  | cat :: rest =>
    match (cat.items.getD []).find? (isChannelForSite currentSite) with
    | some it => some it
    | none => findChannelItem currentSite rest

/-- The function `tryLoadChannelEmbed` of `site.js`, with the global `PROG_DATA` as `data`. -/
def tryLoadChannelEmbed (pf : Platform) (data : Manifest) (page : Page) : Page :=
  match page.channelEmbedContainer, data.categories with
  | none, _ => page
  | some _, none => page
  | some _, some cats =>
    let currentSite := getCurrentSiteName page.pathname
    let page1 : Page := { page with channelEmbedContainer := some [] }
    match findChannelItem currentSite cats with
    | none => { page1 with channelBannerContainer := page1.channelBannerContainer.map (fun _ => []) }
    | some it =>
      { page1 with
        currentChannelItem := some it
        channelBannerContainer :=
          page1.channelBannerContainer.map (fun _ => [Node.banner (bannerOf pf it)]) }

/-! ## Vocabulary of the statements -/

/-- The items the match loop stops at once an uploads-list id is resolved: channel items
whose URL matches or whose title carries the marker. -/
def selects (pf : Platform) (wantUrl : String) (it : Item) : Bool :=
  decide (it.type = some "channel") && (urlMatches pf wantUrl it || titleHasMarker it)

/-- The number of items of each category, in order (`none` for a category without an
items array, and for a manifest without a categories array). -/
def itemCounts (m : Manifest) : Option (List (Option Nat)) :=
  m.categories.map (fun cats => cats.map (fun c => c.items.map List.length))

/-- A run of `n` slashes. -/
def slashes (n : Nat) : String := ⟨List.replicate n '/'⟩

/-- The cards among the children of a container, in order. -/
def cardsOf (nodes : List Node) : List Card :=
  nodes.filterMap (fun n => match n with
    | Node.card c => some c
    | _ => none)

/-- An item passes the site filter of a page: it carries no site (absent or empty), or
the page has no current site, or the two are equal. -/
def siteVisible (currentSite : Option String) (item : Item) : Prop :=
  item.site = none ∨ item.site = some "" ∨ currentSite = none ∨ item.site = currentSite

instance (currentSite : Option String) (item : Item) : Decidable (siteVisible currentSite item) := by
  unfold siteVisible; infer_instance

/-- An item after the update is the item before it: the fields the update never assigns
(`url`, `type`, `site`, `thumbnail`, `description`, `embed`) are the same, and an item
that is not of type `channel` is the same in every field. -/
def itemKept (x x' : Item) : Prop :=
  x'.url = x.url ∧ x'.type = x.type ∧ x'.site = x.site ∧ x'.thumbnail = x.thumbnail ∧
  x'.description = x.description ∧ x'.embed = x.embed ∧ (x.type ≠ some "channel" → x' = x)

/-- A category after the match loop is the category before it: same id and title, an
items value that is an array exactly when it was, and the same items at the same
positions, none added and none removed. -/
def categoryKept (c c' : Category) : Prop :=
  c'.id = c.id ∧ c'.title = c.title ∧ (c'.items = none ↔ c.items = none) ∧
  List.Forall₂ itemKept (c.items.getD []) (c'.items.getD [])

/-- The text `s` begins with a match of the id pattern for the quoted field name `key`:
the name, white space, a colon, white space, a quote, `UC`, the non-empty quote-free
`body`, and a closing quote. The matched id is `UC` followed by `body`. -/
def literalAt (key s body : List Char) : Prop :=
  ∃ ws1 ws2 post,
    s = key ++ (ws1 ++ ':' :: (ws2 ++ '"' :: 'U' :: 'C' :: (body ++ '"' :: post))) ∧
    (∀ c ∈ ws1, isJsWhitespace c = true) ∧ (∀ c ∈ ws2, isJsWhitespace c = true) ∧
    body ≠ [] ∧ '"' ∉ body

/-- The id pattern for `key` matches in the markup at offset `n`, with `UC` + `body` as
the matched id. -/
def occursAt (key markup : List Char) (n : Nat) (body : List Char) : Prop :=
  literalAt key (markup.drop n) body

/-- The leftmost match of the id pattern for `key` in the markup is at offset `n`, with
`UC` + `body` as the matched id. -/
def firstOccurrence (key markup : List Char) (n : Nat) (body : List Char) : Prop :=
  occursAt key markup n body ∧ ∀ k, k < n → ∀ b, ¬ occursAt key markup k b

/-- The id pattern for `key` matches nowhere in the markup. -/
def noOccurrence (key markup : List Char) : Prop :=
  ∀ k b, ¬ occursAt key markup k b

/-! ## A concrete platform for the examples -/

/-- Splits a list of characters at the first character satisfying `p`: the part before,
and the part from that character on. -/
def splitAtFirst (p : Char → Bool) : List Char → List Char × List Char
  | [] => ([], [])
  | c :: cs =>
    if p c then ([], c :: cs)
    else
      let w := splitAtFirst p cs
      (c :: w.1, w.2)

/-- One `name=value` pair of a query string. -/
def queryPair (kv : List Char) : String × String :=
  let w := splitAtFirst (fun c => c == '=') kv
  (⟨w.1⟩, ⟨w.2.drop 1⟩)

/-- The scheme of a string and what follows its colon, when the string begins with a
scheme: a letter, then letters, digits, `+`, `-` or `.`, then `:`. -/
def splitScheme (s : List Char) : Option (List Char × List Char) :=
  match s with
  | [] => none
  | c :: cs =>
    if c.isAlpha then
      match cs.dropWhile (fun d => d.isAlphanum || d == '+' || d == '-' || d == '.') with
      | ':' :: rest =>
        some (c :: cs.takeWhile (fun d => d.isAlphanum || d == '+' || d == '-' || d == '.'), rest)
      | _ => none
    else none

/-- The schemes the URL standard calls special. -/
def specialSchemes : List (List Char) :=
  ["ftp".data, "file".data, "http".data, "https".data, "ws".data, "wss".data]

/-- The part of `new URL(u)` used in the examples. An `http://` or `https://` URL with a
plain host (no credentials, no port), a path without dot segments, and characters that
need no escaping, is parsed into origin, host, path and query. A string with a
non-special scheme and no slash after the colon (`urn:isbn:1`) is parsed as a URL with
an opaque path: its origin is opaque and is serialised as `null`, its host is empty and
its pathname is what follows the colon, up to the query or fragment. A string without a
scheme is rejected, as the constructor rejects it; the other strings are outside the
examples. -/
def sampleParseURL (u : String) : Option URL :=
  let go (scheme : String) (rest : List Char) : Option URL :=
    let h := splitAtFirst (fun c => c == '/' || c == '?' || c == '#') rest
    let p := splitAtFirst (fun c => c == '?' || c == '#') h.2
    let q := splitAtFirst (fun c => c == '#') p.2
    if h.1 = [] then none
    else some
      { origin := scheme ++ "://" ++ ⟨h.1⟩
        hostname := ⟨h.1⟩
        pathname := if p.1 = [] then "/" else ⟨p.1⟩
        searchParams :=
          ((splitOnChar '&' (q.1.drop 1)).filter (fun kv => kv ≠ [])).map queryPair }
  if startsWithChars "https://".data u.data then go "https" (u.data.drop 8)
  else if startsWithChars "http://".data u.data then go "http" (u.data.drop 7)
  else
    match splitScheme u.data with
    | none => none
    | some (scheme, rest) =>
      if scheme.map Char.toLower ∈ specialSchemes ∨ rest.head? = some '/' then none
      else
        let p := splitAtFirst (fun c => c == '?' || c == '#') rest
        let q := splitAtFirst (fun c => c == '#') p.2
        some
          { origin := "null"
            hostname := ""
            pathname := ⟨p.1⟩
            searchParams :=
              ((splitOnChar '&' (q.1.drop 1)).filter (fun kv => kv ≠ [])).map queryPair }

/-- The characters `encodeURIComponent` leaves as they are. -/
def isUnreservedChar (c : Char) : Bool :=
  c.isAlphanum || "-_.!~*()".data.contains c || c == Char.ofNat 39

/-- A hexadecimal digit, upper case. -/
def hexDigit (n : Nat) : Char :=
  if n < 10 then Char.ofNat (48 + n) else Char.ofNat (55 + n)

/-- The function `encodeURIComponent` on a string of Unicode scalar values: every
character but the unreserved ones becomes the `%XX` escapes of its UTF-8 bytes. -/
def sampleEncodeURIComponent (s : String) : String :=
  ⟨s.data.flatMap (fun c =>
    if isUnreservedChar c then [c]
    else (String.utf8EncodeChar c).flatMap
      (fun b => ['%', hexDigit (b.toNat / 16), hexDigit (b.toNat % 16)]))⟩

/-- The platform used to evaluate the scripts on concrete inputs. -/
def samplePlatform : Platform :=
  { parseURL := sampleParseURL
    encodeURIComponent := sampleEncodeURIComponent
    toUpperCase := fun s => ⟨s.data.map Char.toUpper⟩ }

/-- A network on which every request fails. -/
def offlineNetwork : Network :=
  { channels := fun _ => .error "offline"
    search := fun _ => .error "offline"
    page := fun _ => .error "offline" }

/-- A network on which only the channel page can be fetched. -/
def pageOnlyNetwork (html : String) : Network :=
  { offlineNetwork with page := fun _ => .ok html }

/-- A run with the given arguments on a machine with no manifest file and no network. -/
def bareEnv (argv : List String) : Env :=
  { argv := argv
    resolve := fun p => p
    files := fun _ => none
    parseJSON := fun _ => none
    stringify := fun _ => ""
    net := offlineNetwork
    pf := samplePlatform }

/-! ## Example data -/

def exampleChannelUrl : String := "https://www.youtube.com/@progamer-sub"

def exampleResolved : Resolved :=
  { apiChannelId := some "UCabc", apiTitle := some "Haris Atif", uploadsPlaylist := some "UUabc" }

def markerResolved : Resolved :=
  { apiChannelId := some "UCabc", apiTitle := some "ProGamer Sub", uploadsPlaylist := some "UUabc" }

def markerItem : Item :=
  { title := some "ProGamer", url := some "https://example.com/other", type := some "channel" }

def urlItem : Item :=
  { title := some "My channel", url := some "https://www.youtube.com/@progamer-sub/?feature=x",
    type := some "channel" }

def videoItem : Item :=
  { title := some "A video", url := some "https://www.youtube.com/watch?v=abc" }

def markerManifest : Manifest :=
  { categories := some [{ id := some "gaming", title := some "Gaming", items := some [markerItem] }] }

def twoChannelManifest : Manifest :=
  { categories := some
      [{ id := some "gaming", title := some "Gaming", items := some [videoItem, markerItem, urlItem] }] }

def videoManifest : Manifest :=
  { categories := some
      [{ id := some "gaming", title := some "Gaming", items := some [videoItem] },
       { id := some "more", title := some "More" }] }

def urlManifest : Manifest :=
  { categories := some
      [{ id := some "videos", title := some "Videos", items := some [videoItem] },
       { id := some "gaming", title := some "Gaming",
         items := some [videoItem, urlItem, markerItem] }] }

def otherSiteItem : Item :=
  { title := some "Other channel", url := some "https://www.youtube.com/@other",
    type := some "channel", site := some "other" }

def otherSiteManifest : Manifest :=
  { categories := some
      [{ id := some "gaming", title := some "Gaming", items := some [videoItem, otherSiteItem] }] }

def siteManifest : Manifest :=
  { categories := some
      [{ id := some "videos", title := some "Videos", items := some [videoItem] },
       { id := some "gaming",
         items := some [otherSiteItem, { urlItem with site := some "harisatif" }, markerItem] }] }

def rootPage : Page :=
  { pathname := "/index.html"
    categories := some []
    categorySelect := some { options := [{ value := some "old", textContent := some "Old" }] }
    channelEmbedContainer := some []
    channelBannerContainer := some [] }

def sitePage : Page :=
  { pathname := "/sites/harisatif/index.html"
    categories := some [Node.text "Category not found."]
    categorySelect := some { options := [{ value := some "old", textContent := some "Old" }] }
    channelEmbedContainer := some []
    channelBannerContainer := some [Node.text "stale"] }

/-- A page whose markup carries both id fields. -/
def sampleHtml : String :=
  "<script>var d = [\"externalId\":\"UCzzz\", \"channelId\" : \"UCabc123\"];</script>"

/-- A page whose markup carries neither id field. -/
def plainHtml : String := "<html><body>no ids here</body></html>"

/-- A run without API key on a machine where the manifest file and the channel page can
be read; the manifest text parses to `videoManifest`, and a manifest is written as
the item counts of its first two categories. -/
def scrapeEnv : Env :=
  { argv := ["--channel=https://www.youtube.com/@progamer-sub", "--file=categories.json"]
    resolve := fun p => p
    files := fun p => if p = "categories.json" then some "manifest text" else none
    parseJSON := fun _ => some videoManifest
    stringify := fun m =>
      " ".intercalate
        (((m.categories.getD []).take 2).map (fun c => toString (c.items.getD []).length))
    net := pageOnlyNetwork plainHtml
    pf := samplePlatform }

/-- A manifest with a categories array that holds no category. -/
def emptyManifest : Manifest := { categories := some [] }

/-! # Theorems -/

/-! ## The match loop -/

theorem visitItem_of_not_channel (pf : Platform) (w : String) (r : Resolved) (it : Item)
    (h : it.type ≠ some "channel") : visitItem pf w r it = (it, false) := by
  simp [visitItem, h]

theorem visitItem_of_uploads (pf : Platform) (w : String) (r : Resolved) (it : Item)
    (hpl : truthy r.uploadsPlaylist = true) :
    visitItem pf w r it = if selects pf w it then (applyResolved r it, true) else (it, false) := by
  unfold visitItem selects
  by_cases ht : it.type = some "channel" <;> by_cases hu : urlMatches pf w it = true <;>
    by_cases hm : titleHasMarker it = true <;> simp [ht, hu, hm, hpl]

theorem visitItems_of_no_channel (pf : Platform) (w : String) (r : Resolved) (items : List Item)
    (h : ∀ x ∈ items, x.type ≠ some "channel") : visitItems pf w r items = (items, false) := by
  induction items with
  | nil => rfl
  | cons it rest ih =>
    have h1 := visitItem_of_not_channel pf w r it (h it (List.mem_cons_self _ _))
    have h2 := ih (fun x hx => h x (List.mem_cons_of_mem _ hx))
    simp [visitItems, h1, h2]

theorem visitItems_length (pf : Platform) (w : String) (r : Resolved) (items : List Item) :
    (visitItems pf w r items).1.length = items.length := by
  induction items with
  | nil => rfl
  | cons it rest ih =>
    unfold visitItems
    by_cases hv : (visitItem pf w r it).2 = true <;> simp [hv, ih]

theorem visitItems_of_none (pf : Platform) (w : String) (r : Resolved) (items : List Item)
    (hpl : truthy r.uploadsPlaylist = true) (h : ∀ x ∈ items, selects pf w x = false) :
    visitItems pf w r items = (items, false) := by
  induction items with
  | nil => rfl
  | cons it rest ih =>
    have h1 : visitItem pf w r it = (it, false) := by
      rw [visitItem_of_uploads pf w r it hpl]; simp [h it (List.mem_cons_self _ _)]
    have h2 := ih (fun x hx => h x (List.mem_cons_of_mem _ hx))
    simp [visitItems, h1, h2]

theorem visitItems_of_first (pf : Platform) (w : String) (r : Resolved)
    (pre post : List Item) (it : Item) (hpl : truthy r.uploadsPlaylist = true)
    (hpre : ∀ x ∈ pre, selects pf w x = false) (hit : selects pf w it = true) :
    visitItems pf w r (pre ++ it :: post) = (pre ++ applyResolved r it :: post, true) := by
  induction pre with
  | nil =>
    have h1 : visitItem pf w r it = (applyResolved r it, true) := by
      rw [visitItem_of_uploads pf w r it hpl]; simp [hit]
    simp [visitItems, h1]
  | cons p pre ih =>
    have h1 : visitItem pf w r p = (p, false) := by
      rw [visitItem_of_uploads pf w r p hpl]; simp [hpre p (List.mem_cons_self _ _)]
    have h2 := ih (fun x hx => hpre x (List.mem_cons_of_mem _ hx))
    simp [visitItems, h1, h2]

theorem category_with_items (c : Category) (items : List Item) (h : c.items = some items) :
    ({ c with items := some items } : Category) = c := by
  cases c; simp_all

theorem visitCategories_of_no_channel (pf : Platform) (w : String) (r : Resolved)
    (cats : List Category)
    (h : ∀ c ∈ cats, ∀ items, c.items = some items → ∀ x ∈ items, x.type ≠ some "channel") :
    visitCategories pf w r cats = (cats, false) := by
  induction cats with
  | nil => rfl
  | cons c rest ih =>
    have h2 := ih (fun c' hc => h c' (List.mem_cons_of_mem _ hc))
    unfold visitCategories
    cases hc : c.items with
    | none => simp [h2]
    | some items =>
      have h1 := visitItems_of_no_channel pf w r items (h c (List.mem_cons_self _ _) items hc)
      simp [h1, h2, category_with_items c items hc]

theorem visitCategories_of_none (pf : Platform) (w : String) (r : Resolved)
    (cats : List Category) (hpl : truthy r.uploadsPlaylist = true)
    (h : ∀ c ∈ cats, ∀ items, c.items = some items → ∀ x ∈ items, selects pf w x = false) :
    visitCategories pf w r cats = (cats, false) := by
  induction cats with
  | nil => rfl
  | cons c rest ih =>
    have h2 := ih (fun c' hc => h c' (List.mem_cons_of_mem _ hc))
    unfold visitCategories
    cases hc : c.items with
    | none => simp [h2]
    | some items =>
      have h1 := visitItems_of_none pf w r items hpl (h c (List.mem_cons_self _ _) items hc)
      simp [h1, h2, category_with_items c items hc]

theorem visitCategories_of_first (pf : Platform) (w : String) (r : Resolved)
    (pre post : List Category) (cat : Category) (ipre ipost : List Item) (it : Item)
    (hpl : truthy r.uploadsPlaylist = true)
    (hpre : ∀ c ∈ pre, ∀ items, c.items = some items → ∀ x ∈ items, selects pf w x = false)
    (hcat : cat.items = some (ipre ++ it :: ipost))
    (hipre : ∀ x ∈ ipre, selects pf w x = false) (hit : selects pf w it = true) :
    visitCategories pf w r (pre ++ cat :: post)
      = (pre ++ { cat with items := some (ipre ++ applyResolved r it :: ipost) } :: post, true) := by
  induction pre with
  | nil =>
    have h1 := visitItems_of_first pf w r ipre ipost it hpl hipre hit
    simp [visitCategories, hcat, h1]
  | cons c pre ih =>
    have h2 := ih (fun c' hc => hpre c' (List.mem_cons_of_mem _ hc))
    have hc0 := hpre c (List.mem_cons_self _ _)
    rw [List.cons_append]
    unfold visitCategories
    cases hc : c.items with
    | none => simp [h2]
    | some items =>
      have h1 := visitItems_of_none pf w r items hpl (hc0 items hc)
      simp [h1, h2, category_with_items c items hc]

theorem applyResolved_type (r : Resolved) (it : Item) : (applyResolved r it).type = it.type := by
  unfold applyResolved
  cases r.apiThumbnails <;> cases r.uploadsPlaylist <;> dsimp only <;> split_ifs <;> rfl

theorem applyResolved_url (r : Resolved) (it : Item) : (applyResolved r it).url = it.url := by
  unfold applyResolved
  cases r.apiThumbnails <;> cases r.uploadsPlaylist <;> dsimp only <;> split_ifs <;> rfl

theorem applyResolved_title (r : Resolved) (it : Item) :
    (applyResolved r it).title = if truthy r.apiTitle then r.apiTitle else it.title := by
  unfold applyResolved
  cases r.apiThumbnails <;> cases r.uploadsPlaylist <;> dsimp only <;> split_ifs <;> rfl

theorem selects_newItem (pf : Platform) (channelUrl : String) (r : Resolved)
    (hurl : channelUrl ≠ "") :
    selects pf (normalizeUrl pf channelUrl) (newItem channelUrl r) = true := by
  simp [selects, newItem, urlMatches, truthy, hurl]

theorem selects_applyResolved (pf : Platform) (w : String) (r : Resolved) (it : Item)
    (hsel : selects pf w it = true)
    (hk : (∀ t, r.apiTitle = some t → truthy (some t) = true → progamerTest t = true) ∨
      (titleHasMarker it = true → urlMatches pf w it = true)) :
    selects pf w (applyResolved r it) = true := by
  have hu : urlMatches pf w (applyResolved r it) = urlMatches pf w it := by
    simp [urlMatches, applyResolved_url]
  simp only [selects, Bool.and_eq_true, Bool.or_eq_true, decide_eq_true_eq] at hsel ⊢
  refine ⟨by rw [applyResolved_type]; exact hsel.1, ?_⟩
  rw [hu]
  rcases hsel.2 with h | h
  · exact Or.inl h
  · rcases hk with hk | hk
    · right
      unfold titleHasMarker
      rw [applyResolved_title]
      by_cases ht : truthy r.apiTitle = true
      · rw [if_pos ht]
        cases hr : r.apiTitle with
        | none => rw [hr] at ht; simp [truthy] at ht
        | some t =>
          rw [hr] at ht
          simp [ht, hk t hr ht]
      · rw [if_neg ht]
        exact h
    · exact Or.inl (hk h)

theorem visitItems_snd (pf : Platform) (w : String) (r : Resolved) (items : List Item)
    (hpl : truthy r.uploadsPlaylist = true) :
    (visitItems pf w r items).2 = items.any (selects pf w) := by
  induction items with
  | nil => rfl
  | cons it rest ih =>
    unfold visitItems
    rw [visitItem_of_uploads pf w r it hpl]
    by_cases hs : selects pf w it = true
    · simp [hs]
    · simp [hs, ih]

/-- Whether some category with an items array holds an item the loop stops at. -/
theorem visitCategories_snd (pf : Platform) (w : String) (r : Resolved) (cats : List Category)
    (hpl : truthy r.uploadsPlaylist = true) :
    (visitCategories pf w r cats).2 = cats.any (fun c => (c.items.getD []).any (selects pf w)) := by
  induction cats with
  | nil => rfl
  | cons c rest ih =>
    unfold visitCategories
    cases hc : c.items with
    | none => simp [ih, hc]
    | some items =>
      have h1 := visitItems_snd pf w r items hpl
      by_cases hs : items.any (selects pf w) = true
      · rw [hs] at h1; simp [h1, hc, hs]
      · simp only [Bool.not_eq_true] at hs
        rw [hs] at h1; simp [h1, hc, hs, ih]

theorem visitItems_true_inv (pf : Platform) (w : String) (r : Resolved) (items : List Item)
    (hpl : truthy r.uploadsPlaylist = true) (h : (visitItems pf w r items).2 = true) :
    ∃ pre it post, items = pre ++ it :: post ∧ selects pf w it = true ∧
      (visitItems pf w r items).1 = pre ++ applyResolved r it :: post := by
  induction items with
  | nil => simp [visitItems] at h
  | cons x rest ih =>
    have hx := visitItem_of_uploads pf w r x hpl
    by_cases hs : selects pf w x = true
    · refine ⟨[], x, rest, rfl, hs, ?_⟩
      simp [visitItems, hx, hs]
    · have hx2 : visitItem pf w r x = (x, false) := by simp [hx, hs]
      have h2 : (visitItems pf w r rest).2 = true := by
        simpa [visitItems, hx2] using h
      obtain ⟨pre, it, post, hrest, hsel, hres⟩ := ih h2
      refine ⟨x :: pre, it, post, by simp [hrest], hsel, ?_⟩
      simp [visitItems, hx2, hres]

theorem visitCategories_true_inv (pf : Platform) (w : String) (r : Resolved)
    (cats : List Category) (hpl : truthy r.uploadsPlaylist = true)
    (h : (visitCategories pf w r cats).2 = true) :
    ∃ pre cat post ipre it ipost, cats = pre ++ cat :: post ∧
      cat.items = some (ipre ++ it :: ipost) ∧ selects pf w it = true ∧
      (visitCategories pf w r cats).1
        = pre ++ { cat with items := some (ipre ++ applyResolved r it :: ipost) } :: post := by
  induction cats with
  | nil => simp [visitCategories] at h
  | cons c rest ih =>
    cases hc : c.items with
    | none =>
      have h2 : (visitCategories pf w r rest).2 = true := by
        simpa [visitCategories, hc] using h
      obtain ⟨pre, cat, post, ipre, it, ipost, hrest, hcat, hsel, hres⟩ := ih h2
      refine ⟨c :: pre, cat, post, ipre, it, ipost, by simp [hrest], hcat, hsel, ?_⟩
      simp [visitCategories, hc, hres]
    | some items =>
      by_cases hv : (visitItems pf w r items).2 = true
      · obtain ⟨ipre, it, ipost, hitems, hsel, hres⟩ := visitItems_true_inv pf w r items hpl hv
        refine ⟨[], c, rest, ipre, it, ipost, rfl, by rw [hc, hitems], hsel, ?_⟩
        simp [visitCategories, hc, hv, hres]
      · have h2 : (visitCategories pf w r rest).2 = true := by
          simpa [visitCategories, hc, hv] using h
        have hnone : visitItems pf w r items = (items, false) := by
          apply visitItems_of_none pf w r items hpl
          intro x hx
          have := visitItems_snd pf w r items hpl
          simp only [Bool.not_eq_true] at hv
          rw [hv] at this
          have h3 := List.any_eq_false.mp this.symm x hx
          simpa using h3
        obtain ⟨pre, cat, post, ipre, it, ipost, hrest, hcat, hsel, hres⟩ := ih h2
        refine ⟨c :: pre, cat, post, ipre, it, ipost, by simp [hrest], hcat, hsel, ?_⟩
        simp [visitCategories, hc, hnone, hres, category_with_items c items hc]

theorem visitCategories_counts (pf : Platform) (w : String) (r : Resolved)
    (cats : List Category) :
    (visitCategories pf w r cats).1.map (fun c => c.items.map List.length)
      = cats.map (fun c => c.items.map List.length) := by
  induction cats with
  | nil => rfl
  | cons c rest ih =>
    unfold visitCategories
    cases hc : c.items with
    | none => simp [ih, hc]
    | some items =>
      by_cases hv : (visitItems pf w r items).2 = true
      · simp [hv, hc, visitItems_length]
      · simp [hv, hc, visitItems_length, ih]

theorem updateManifest_of_loop (pf : Platform) (channelUrl : String) (r : Resolved)
    (m : Manifest) (h : (matchLoop pf channelUrl r m).2 = true) :
    updateManifest pf channelUrl r m = matchLoop pf channelUrl r m := by
  simp [updateManifest, h]

/-- After a first run with a resolved uploads-list id, some category of the manifest
holds an item the loop stops at. -/
theorem updateManifest_has_selected (pf : Platform) (channelUrl : String) (r : Resolved)
    (m : Manifest) (hpl : truthy r.uploadsPlaylist = true) (hurl : channelUrl ≠ "")
    (hkeep : (∀ t, r.apiTitle = some t → truthy (some t) = true → progamerTest t = true) ∨
      (∀ cats, m.categories = some cats → ∀ c ∈ cats, ∀ items, c.items = some items →
        ∀ x ∈ items, titleHasMarker x = true →
          urlMatches pf (normalizeUrl pf channelUrl) x = true)) :
    ∃ cats1, (updateManifest pf channelUrl r m).1.categories = some cats1 ∧
      cats1.any (fun c => (c.items.getD []).any (selects pf (normalizeUrl pf channelUrl))) = true := by
  have hnew := selects_newItem pf channelUrl r hurl
  cases hm : m.categories with
  | none =>
    refine ⟨[{ channelsCategory with items := some [newItem channelUrl r] }], ?_, ?_⟩
    · simp [updateManifest, matchLoop, hm, appendStep, channelsCategory]
    · simp [hnew]
  | some cats =>
    by_cases hv : (visitCategories pf (normalizeUrl pf channelUrl) r cats).2 = true
    · obtain ⟨pre, cat, post, ipre, it, ipost, hcats, hcat, hsel, hres⟩ :=
        visitCategories_true_inv pf _ r cats hpl hv
      refine ⟨pre ++ { cat with items := some (ipre ++ applyResolved r it :: ipost) } :: post,
        ?_, ?_⟩
      · simp [updateManifest, matchLoop, hm, hv, hres]
      · have hk : selects pf (normalizeUrl pf channelUrl) (applyResolved r it) = true := by
          apply selects_applyResolved pf _ r it hsel
          rcases hkeep with hk | hk
          · exact Or.inl hk
          · right
            refine hk cats hm cat ?_ _ hcat it ?_
            · rw [hcats]; simp
            · simp
        simp [hk]
    · simp only [Bool.not_eq_true] at hv
      cases hw : (visitCategories pf (normalizeUrl pf channelUrl) r cats).1 with
      | nil =>
        refine ⟨[{ channelsCategory with items := some [newItem channelUrl r] }], ?_, ?_⟩
        · simp [updateManifest, matchLoop, hm, hv, hw, appendStep, channelsCategory]
        · simp [hnew]
      | cons c cs =>
        refine ⟨{ c with items := some (c.items.getD [] ++ [newItem channelUrl r]) } :: cs, ?_, ?_⟩
        · simp [updateManifest, matchLoop, hm, hv, hw, appendStep]
        · simp [hnew]

/-- C1 (amended): when an uploads-list id was resolved, the channel URL is non-empty, and
either the resolved title is absent or itself contains the marker, or every item with a
marker title also matches by URL, then a second run of the manifest update on the
output of a first run stops at an existing item and appends nothing: every category has
the same number of items after the second run as after the first. -/
theorem updateManifest_second_run_appends_nothing (pf : Platform) (channelUrl : String)
    (r : Resolved) (m : Manifest) (hpl : truthy r.uploadsPlaylist = true)
    (hurl : channelUrl ≠ "")
    (hkeep : (∀ t, r.apiTitle = some t → truthy (some t) = true → progamerTest t = true) ∨
      (∀ cats, m.categories = some cats → ∀ c ∈ cats, ∀ items, c.items = some items →
        ∀ x ∈ items, titleHasMarker x = true →
          urlMatches pf (normalizeUrl pf channelUrl) x = true)) :
    (matchLoop pf channelUrl r (updateManifest pf channelUrl r m).1).2 = true ∧
    itemCounts (updateManifest pf channelUrl r (updateManifest pf channelUrl r m).1).1
      = itemCounts (updateManifest pf channelUrl r m).1 := by
  obtain ⟨cats1, hc1, hany⟩ := updateManifest_has_selected pf channelUrl r m hpl hurl hkeep
  have hsnd := visitCategories_snd pf (normalizeUrl pf channelUrl) r cats1 hpl
  rw [hany] at hsnd
  have hloop : (matchLoop pf channelUrl r (updateManifest pf channelUrl r m).1).2 = true := by
    simp [matchLoop, hc1, hsnd]
  refine ⟨hloop, ?_⟩
  have hcnt := visitCategories_counts pf (normalizeUrl pf channelUrl) r cats1
  rw [updateManifest_of_loop pf channelUrl r _ hloop]
  simp [matchLoop, hc1, itemCounts, hcnt]

theorem updateManifest_second_run_appends_nothing_witness :
    truthy markerResolved.uploadsPlaylist = true ∧ exampleChannelUrl ≠ "" ∧
    (matchLoop samplePlatform exampleChannelUrl markerResolved
      (updateManifest samplePlatform exampleChannelUrl markerResolved markerManifest).1).2 = true ∧
    itemCounts (updateManifest samplePlatform exampleChannelUrl markerResolved
      (updateManifest samplePlatform exampleChannelUrl markerResolved markerManifest).1).1
      = itemCounts
        (updateManifest samplePlatform exampleChannelUrl markerResolved markerManifest).1 :=
  ⟨by decide, by decide,
    updateManifest_second_run_appends_nothing samplePlatform exampleChannelUrl markerResolved
      markerManifest (by decide) (by decide)
      (Or.inl (fun t ht _ => by
        have h : t = "ProGamer Sub" := (Option.some.inj ht).symm
        subst h
        decide))⟩

/-- C1 fails as stated: with a resolved uploads-list id, a first run selects the only
channel item by its marker title and replaces the title; the second run finds no match
and appends a second item. -/
theorem updateManifest_second_run_appends_counterexample :
    itemCounts (updateManifest samplePlatform exampleChannelUrl exampleResolved markerManifest).1
      = some [some 1] ∧
    itemCounts (updateManifest samplePlatform exampleChannelUrl exampleResolved
      (updateManifest samplePlatform exampleChannelUrl exampleResolved markerManifest).1).1
      = some [some 2] := by
  decide

/-- C2: for a manifest with no channel-type item the manifest update reports an update
and appends exactly one new item (type `channel`, url the input channel URL, site
`harisatif`) at the end of the first category's items, every other category and the
first category's id and title staying as they were; when the manifest has no category
it holds afterwards the single category `channels`/`Channels` with the new item. -/
theorem updateManifest_appends_when_no_channel (pf : Platform) (channelUrl : String)
    (r : Resolved) (m : Manifest)
    (h : ∀ cats, m.categories = some cats → ∀ c ∈ cats, ∀ items, c.items = some items →
      ∀ x ∈ items, x.type ≠ some "channel") :
    (updateManifest pf channelUrl r m).2 = true ∧
    (∀ c cs, m.categories = some (c :: cs) →
      (updateManifest pf channelUrl r m).1 =
        { sites := m.sites
          categories := some ({ id := c.id, title := c.title,
                                items := some (c.items.getD [] ++ [newItem channelUrl r]) } :: cs) }) ∧
    ((m.categories = none ∨ m.categories = some []) →
      (updateManifest pf channelUrl r m).1 =
        { sites := m.sites
          categories := some [{ id := some "channels", title := some "Channels",
                                items := some [newItem channelUrl r] }] }) ∧
    (newItem channelUrl r).type = some "channel" ∧
    (newItem channelUrl r).url = some channelUrl ∧
    (newItem channelUrl r).site = some "harisatif" := by
  have hloop : matchLoop pf channelUrl r m = (m, false) := by
    unfold matchLoop
    cases hm : m.categories with
    | none => rfl
    | some cats =>
      have := visitCategories_of_no_channel pf (normalizeUrl pf channelUrl) r cats (h cats hm)
      simp only [this]
      cases m
      simp_all
  refine ⟨by simp [updateManifest, hloop], ?_, ?_, rfl, rfl, rfl⟩
  · intro c cs hm
    simp [updateManifest, hloop, appendStep, hm]
  · intro hm
    rcases hm with hm | hm <;> simp [updateManifest, hloop, appendStep, hm, channelsCategory]

theorem updateManifest_appends_when_no_channel_witness :
    (updateManifest samplePlatform exampleChannelUrl exampleResolved videoManifest).1 =
      { sites := none
        categories := some
          [{ id := some "gaming", title := some "Gaming",
             items := some [videoItem, newItem exampleChannelUrl exampleResolved] },
           { id := some "more", title := some "More" }] } :=
  (updateManifest_appends_when_no_channel samplePlatform exampleChannelUrl exampleResolved
    videoManifest (by decide)).2.1 _ _ rfl

/-- C3 (amended): once an uploads-list id is resolved, the match loop updates exactly the
first channel-type item, in category order then item order (categories without an items
array are skipped), whose URL matches the input URL under `normalizeUrl` or whose title
carries the marker, and reports an update; when no channel-type item matches either way
the loop changes nothing and reports no update. -/
theorem matchLoop_updates_first_selected (pf : Platform) (channelUrl : String) (r : Resolved)
    (m : Manifest) (hpl : truthy r.uploadsPlaylist = true) :
    (∀ pre cat post ipre it ipost, m.categories = some (pre ++ cat :: post) →
      cat.items = some (ipre ++ it :: ipost) →
      (∀ c ∈ pre, ∀ items, c.items = some items →
        ∀ x ∈ items, selects pf (normalizeUrl pf channelUrl) x = false) →
      (∀ x ∈ ipre, selects pf (normalizeUrl pf channelUrl) x = false) →
      selects pf (normalizeUrl pf channelUrl) it = true →
      matchLoop pf channelUrl r m =
        ({ sites := m.sites,
           categories := some (pre ++
            { id := cat.id, title := cat.title,
              items := some (ipre ++ applyResolved r it :: ipost) } :: post) }, true)) ∧
    ((∀ cats, m.categories = some cats → ∀ c ∈ cats, ∀ items, c.items = some items →
        ∀ x ∈ items, selects pf (normalizeUrl pf channelUrl) x = false) →
      matchLoop pf channelUrl r m = (m, false)) := by
  constructor
  · intro pre cat post ipre it ipost hm hcat hpre hipre hit
    have := visitCategories_of_first pf (normalizeUrl pf channelUrl) r pre post cat ipre ipost it
      hpl hpre hcat hipre hit
    simp [matchLoop, hm, this]
  · intro hnone
    unfold matchLoop
    cases hm : m.categories with
    | none => rfl
    | some cats =>
      have := visitCategories_of_none pf (normalizeUrl pf channelUrl) r cats hpl (hnone cats hm)
      simp only [this]
      cases m
      simp_all

theorem matchLoop_updates_first_selected_witness :
    truthy exampleResolved.uploadsPlaylist = true ∧
    matchLoop samplePlatform exampleChannelUrl exampleResolved urlManifest =
      ({ sites := none
         categories := some
          [{ id := some "videos", title := some "Videos", items := some [videoItem] },
           { id := some "gaming", title := some "Gaming",
             items := some [videoItem, applyResolved exampleResolved urlItem, markerItem] }] },
        true) :=
  ⟨by decide,
    (matchLoop_updates_first_selected samplePlatform exampleChannelUrl exampleResolved
      urlManifest (by decide)).1
      [{ id := some "videos", title := some "Videos", items := some [videoItem] }]
      { id := some "gaming", title := some "Gaming",
        items := some [videoItem, urlItem, markerItem] }
      [] [videoItem] urlItem [markerItem] rfl rfl (by decide) (by decide) (by decide)⟩

/-- C3 fails as stated: a channel item with a marker title that stands before the item
whose URL matches is the one the loop updates; the URL-matching item is left as it was. -/
theorem matchLoop_marker_before_url_counterexample :
    urlMatches samplePlatform (normalizeUrl samplePlatform exampleChannelUrl) markerItem = false ∧
    urlMatches samplePlatform (normalizeUrl samplePlatform exampleChannelUrl) urlItem = true ∧
    applyResolved exampleResolved markerItem ≠ markerItem ∧
    matchLoop samplePlatform exampleChannelUrl exampleResolved twoChannelManifest =
      ({ sites := none
         categories := some
          [{ id := some "gaming", title := some "Gaming",
             items := some [videoItem, applyResolved exampleResolved markerItem, urlItem] }] },
        true) := by
  decide

/-! ## `normalizeUrl` -/

theorem dropWhile_replicate_append (p : Char → Bool) (c : Char) (n : Nat) (l : List Char)
    (hc : p c = true) : (List.replicate n c ++ l).dropWhile p = l.dropWhile p := by
  induction n with
  | zero => simp
  | succ n ih => simp [List.replicate_succ, hc, ih]

theorem stripTrailingSlashes_append_slashes (base : String) (n : Nat) :
    stripTrailingSlashes (base ++ slashes n) = stripTrailingSlashes base := by
  unfold stripTrailingSlashes slashes
  simp [String.data_append, List.reverse_append, dropWhile_replicate_append]

/-- C4 (amended): two strings the URL constructor accepts, with the same origin and with
paths that differ only by trailing slashes (query string and fragment are not read),
have the same `normalizeUrl`, so the URL-match step gives the same answer for two items
carrying them; two strings the constructor rejects have the same `normalizeUrl` when
they differ only by trailing slashes. -/
theorem normalizeUrl_eq_of_same_location (pf : Platform) (u1 u2 base : String) (a b : Nat) :
    (∀ x1 x2, pf.parseURL u1 = some x1 → pf.parseURL u2 = some x2 → x1.origin = x2.origin →
      x1.pathname = base ++ slashes a → x2.pathname = base ++ slashes b →
      normalizeUrl pf u1 = normalizeUrl pf u2 ∧
      ∀ (wantUrl : String) (it1 it2 : Item), it1.url = some u1 → it2.url = some u2 →
        u1 ≠ "" → u2 ≠ "" → urlMatches pf wantUrl it1 = urlMatches pf wantUrl it2) ∧
    (pf.parseURL u1 = none → pf.parseURL u2 = none → u1 = base ++ slashes a →
      u2 = base ++ slashes b → normalizeUrl pf u1 = normalizeUrl pf u2) := by
  constructor
  · intro x1 x2 h1 h2 ho hp1 hp2
    have hn : normalizeUrl pf u1 = normalizeUrl pf u2 := by
      simp [normalizeUrl, h1, h2, ho, hp1, hp2, stripTrailingSlashes_append_slashes]
    refine ⟨hn, ?_⟩
    intro w it1 it2 hi1 hi2 hne1 hne2
    simp [urlMatches, hi1, hi2, truthy, hne1, hne2, hn]
  · intro h1 h2 hu1 hu2
    simp only [normalizeUrl, h1, h2]
    rw [hu1, hu2, stripTrailingSlashes_append_slashes, stripTrailingSlashes_append_slashes]

theorem normalizeUrl_eq_of_same_location_witness :
    normalizeUrl samplePlatform "https://www.youtube.com/@progamer-sub/?feature=x#top"
      = normalizeUrl samplePlatform "https://www.youtube.com/@progamer-sub" ∧
    normalizeUrl samplePlatform "youtube.com/@progamer-sub//"
      = normalizeUrl samplePlatform "youtube.com/@progamer-sub" :=
  ⟨((normalizeUrl_eq_of_same_location samplePlatform
      "https://www.youtube.com/@progamer-sub/?feature=x#top"
      "https://www.youtube.com/@progamer-sub" "/@progamer-sub" 1 0).1
      { origin := "https://www.youtube.com", hostname := "www.youtube.com",
        pathname := "/@progamer-sub/", searchParams := [("feature", "x")] }
      { origin := "https://www.youtube.com", hostname := "www.youtube.com",
        pathname := "/@progamer-sub", searchParams := [] }
      (by decide) (by decide) rfl (by decide) (by decide)).1,
    (normalizeUrl_eq_of_same_location samplePlatform "youtube.com/@progamer-sub//"
      "youtube.com/@progamer-sub" "youtube.com/@progamer-sub" 2 0).2
      (by decide) (by decide) (by decide) (by decide)⟩

/-- C4 fails as stated: the URL constructor rejects a string without a scheme, and the
catch branch of `normalizeUrl` strips only trailing slashes; two such strings that differ
only by the query string are returned as they are, so they are not normalised alike. -/
theorem normalizeUrl_rejected_keeps_query_counterexample :
    sampleParseURL "youtube.com/@progamer-sub?feature=x" = none ∧
    sampleParseURL "youtube.com/@progamer-sub" = none ∧
    normalizeUrl samplePlatform "youtube.com/@progamer-sub?feature=x"
      = "youtube.com/@progamer-sub?feature=x" ∧
    normalizeUrl samplePlatform "youtube.com/@progamer-sub" = "youtube.com/@progamer-sub" ∧
    normalizeUrl samplePlatform "youtube.com/@progamer-sub?feature=x"
      ≠ normalizeUrl samplePlatform "youtube.com/@progamer-sub" := by
  decide

/-! ## Preview images -/

theorem splitOnChar_of_not_mem (sep : Char) (l : List Char) (h : sep ∉ l) :
    splitOnChar sep l = [l] := by
  induction l with
  | nil => rfl
  | cons c cs ih =>
    have hc : c ≠ sep := fun e => h (by simp [e])
    have hcs : sep ∉ cs := fun e => h (List.mem_cons_of_mem _ e)
    simp [splitOnChar, ih hcs, hc]

theorem splitOnChar_append_sep (sep : Char) (s l : List Char) (h : sep ∉ l) :
    ∃ seg segs, splitOnChar sep (s ++ sep :: l) = seg :: segs ∧ segs.getLast? = some l := by
  induction s with
  | nil =>
    refine ⟨[], [l], ?_, rfl⟩
    simp [splitOnChar, splitOnChar_of_not_mem sep l h]
  | cons c s ih =>
    obtain ⟨seg, segs, hsplit, hlast⟩ := ih
    by_cases hc : c = sep
    · refine ⟨[], seg :: segs, ?_, ?_⟩
      · simp [splitOnChar, hsplit, hc]
      · cases segs with
        | nil => simp at hlast
        | cons x xs => simpa [List.getLast?_cons_cons] using hlast
    · refine ⟨c :: seg, segs, ?_, hlast⟩
      simp [splitOnChar, hsplit, hc]

theorem splitOnChar_getLast (sep : Char) (s l : List Char) (h : sep ∉ l) :
    (splitOnChar sep (s ++ sep :: l)).getLast? = some l := by
  obtain ⟨seg, segs, hsplit, hlast⟩ := splitOnChar_append_sep sep s l h
  rw [hsplit]
  cases segs with
  | nil => simp at hlast
  | cons x xs => simpa [List.getLast?_cons_cons] using hlast

theorem startsWithChars_append (p l : List Char) : startsWithChars p (p ++ l) = true := by
  induction p with
  | nil => rfl
  | cons c cs ih => simp [startsWithChars, ih]

/-- C5: for a video id `ID` (a non-empty string without a slash) the preview image derived
from a URL is `https://img.youtube.com/vi/` + `encodeURIComponent(ID)` + `/hqdefault.jpg`
for each recognised shape: a youtube.com URL whose `v` parameter is `ID`, a `youtu.be`
URL whose path is `/ID`, and a youtube.com URL without `v` whose path is `/shorts/ID`. -/
theorem getYouTubeThumbnail_same_for_each_shape (pf : Platform) (ID : String)
    (hne : ID ≠ "") (hslash : '/' ∉ ID.data) :
    (∀ url u, pf.parseURL url = some u → includesChars "youtube.com".data u.hostname.data = true →
      searchGet u "v" = some ID →
      getYouTubeThumbnail pf (getYouTubeId pf url)
        = "https://img.youtube.com/vi/" ++ pf.encodeURIComponent ID ++ "/hqdefault.jpg") ∧
    (∀ url u, pf.parseURL url = some u → u.hostname = "youtu.be" → u.pathname = "/" ++ ID →
      getYouTubeThumbnail pf (getYouTubeId pf url)
        = "https://img.youtube.com/vi/" ++ pf.encodeURIComponent ID ++ "/hqdefault.jpg") ∧
    (∀ url u, pf.parseURL url = some u → includesChars "youtube.com".data u.hostname.data = true →
      truthy (searchGet u "v") = false → u.pathname = "/shorts/" ++ ID →
      getYouTubeThumbnail pf (getYouTubeId pf url)
        = "https://img.youtube.com/vi/" ++ pf.encodeURIComponent ID ++ "/hqdefault.jpg") := by
  refine ⟨?_, ?_, ?_⟩
  · intro url u hp hh hv
    have ht : truthy (searchGet u "v") = true := by simp [hv, truthy, hne]
    have hid : getYouTubeId pf url = some ID := by
      unfold getYouTubeId
      rw [hp]
      dsimp only
      rw [if_pos hh, if_pos ht]
      exact hv
    rw [hid]
    rfl
  · intro url u hp hh hpath
    have hnot : ¬ includesChars "youtube.com".data u.hostname.data = true := by
      rw [hh]; decide
    have hd : u.pathname.data.drop 1 = ID.data := by
      rw [hpath]; rfl
    have hid : getYouTubeId pf url = some ID := by
      unfold getYouTubeId
      rw [hp]
      dsimp only
      rw [if_neg hnot, if_pos hh, hd]
    rw [hid]
    rfl
  · intro url u hp hh hv hpath
    have hs : startsWithChars "/shorts/".data u.pathname.data = true := by
      rw [hpath]; exact startsWithChars_append "/shorts/".data ID.data
    have hl : (splitOnChar '/' u.pathname.data).getLast? = some ID.data := by
      rw [hpath]; exact splitOnChar_getLast '/' "/shorts".data ID.data hslash
    have hv2 : ¬ truthy (searchGet u "v") = true := by simp [hv]
    have hid : getYouTubeId pf url = some ID := by
      unfold getYouTubeId
      rw [hp]
      dsimp only
      rw [if_pos hh, if_neg hv2, if_pos hs, hl]
      rfl
    rw [hid]
    rfl

theorem getYouTubeThumbnail_same_for_each_shape_witness :
    getYouTubeThumbnail samplePlatform
        (getYouTubeId samplePlatform "https://www.youtube.com/watch?v=dQw4w9WgXcQ&t=42")
      = "https://img.youtube.com/vi/dQw4w9WgXcQ/hqdefault.jpg" ∧
    getYouTubeThumbnail samplePlatform (getYouTubeId samplePlatform "https://youtu.be/dQw4w9WgXcQ")
      = "https://img.youtube.com/vi/dQw4w9WgXcQ/hqdefault.jpg" ∧
    getYouTubeThumbnail samplePlatform
        (getYouTubeId samplePlatform "https://www.youtube.com/shorts/dQw4w9WgXcQ")
      = "https://img.youtube.com/vi/dQw4w9WgXcQ/hqdefault.jpg" :=
  have h := getYouTubeThumbnail_same_for_each_shape samplePlatform "dQw4w9WgXcQ"
    (by decide) (by decide)
  ⟨h.1 "https://www.youtube.com/watch?v=dQw4w9WgXcQ&t=42"
      { origin := "https://www.youtube.com", hostname := "www.youtube.com",
        pathname := "/watch", searchParams := [("v", "dQw4w9WgXcQ"), ("t", "42")] }
      (by decide) (by decide) (by decide),
    h.2.1 "https://youtu.be/dQw4w9WgXcQ"
      { origin := "https://youtu.be", hostname := "youtu.be",
        pathname := "/dQw4w9WgXcQ", searchParams := [] }
      (by decide) rfl (by decide),
    h.2.2 "https://www.youtube.com/shorts/dQw4w9WgXcQ"
      { origin := "https://www.youtube.com", hostname := "www.youtube.com",
        pathname := "/shorts/dQw4w9WgXcQ", searchParams := [] }
      (by decide) (by decide) (by decide) (by decide)⟩

/-! ## The renderer -/

theorem getCurrentSiteName_ne_empty (pathname s : String) (h : getCurrentSiteName pathname = some s) :
    s ≠ "" := by
  unfold getCurrentSiteName at h
  simp only at h
  split at h
  · rename_i hc
    cases hg : ((splitOnChar '/' pathname.data).filter (fun seg => seg ≠ [])).get?
        (((splitOnChar '/' pathname.data).filter (fun seg => seg ≠ [])).indexOf "sites".data + 1) with
    | none => rw [hg] at h; simp at h
    | some seg =>
      rw [hg] at h
      have hmem := List.get?_mem hg
      have hne : seg ≠ [] := by
        have := (List.mem_filter.mp hmem).2
        simpa using this
      simp only [Option.map_some', Option.some.injEq] at h
      intro hs
      rw [hs] at h
      exact hne (by simpa using congrArg String.data h)
  · simp at h

theorem not_skippedForSite_eq (pathname : String) (item : Item) :
    (!skippedForSite (getCurrentSiteName pathname) item)
      = decide (siteVisible (getCurrentSiteName pathname) item) := by
  have hcur := getCurrentSiteName_ne_empty pathname
  cases hc : getCurrentSiteName pathname with
  | none => simp [skippedForSite, siteVisible, truthy]
  | some s =>
    have hs : s ≠ "" := hcur s hc
    cases hi : item.site with
    | none => simp [skippedForSite, siteVisible, truthy, hi]
    | some t =>
      by_cases ht : t = "" <;> by_cases hts : t = s <;>
        simp [skippedForSite, siteVisible, truthy, hi, hs, ht, hts]

theorem cardsOf_map_card (f : Item → Card) (items : List Item) :
    cardsOf (items.map (fun item => Node.card (f item))) = items.map f := by
  induction items with
  | nil => rfl
  | cons x xs ih =>
    simp only [cardsOf, List.map_cons, List.filterMap_cons] at ih ⊢
    rw [ih]

theorem find_first_with_id (pre post : List Category) (cat : Category) (catId : String)
    (hid : cat.id = some catId) (hpre : ∀ c ∈ pre, c.id ≠ some catId) :
    (pre ++ cat :: post).find? (fun c => c.id == some catId) = some cat := by
  induction pre with
  | nil => simp [hid]
  | cons c pre ih =>
    have h1 : c.id ≠ some catId := hpre c (List.mem_cons_self _ _)
    have h2 := ih (fun c' hc => hpre c' (List.mem_cons_of_mem _ hc))
    simp [List.find?_cons, h1, h2]

/-- C6 (amended): for a page that has the container and a category id carried by a
category of the manifest (the first one carrying it is shown), `showCategory` renders
exactly one card for each item of that category that carries no site (absent or empty),
or is shown on a page without a current site, or whose site equals the current site
(`getCurrentSiteName`); it renders no card for any other item, and the cards are in the
items' manifest order. -/
theorem showCategory_cards (pf : Platform) (data : Manifest) (page : Page) (catId : String)
    (pre post : List Category) (cat : Category) (old : List Node)
    (hc : page.categories = some old)
    (hcats : data.categories = some (pre ++ cat :: post))
    (hid : cat.id = some catId) (hpre : ∀ c ∈ pre, c.id ≠ some catId) :
    cardsOf ((showCategory pf data page catId).categories.getD [])
      = ((cat.items.getD []).filter
          (fun item => decide (siteVisible (getCurrentSiteName page.pathname) item))).map
        (cardOf pf) := by
  have hfind := find_first_with_id pre post cat catId hid hpre
  have hfilter : (fun item => !skippedForSite (getCurrentSiteName page.pathname) item)
      = (fun item => decide (siteVisible (getCurrentSiteName page.pathname) item)) :=
    funext (not_skippedForSite_eq page.pathname)
  unfold showCategory
  rw [hcats, hc]
  simp only [Option.getD_some, hfind]
  by_cases hlen : (cat.items.getD []).length = 0
  · have hnil : cat.items.getD [] = [] := List.length_eq_zero.mp hlen
    simp [hnil, cardsOf]
  · rw [if_neg hlen]
    simp only [Option.getD_some]
    rw [cardsOf_map_card, hfilter]

theorem showCategory_cards_witness :
    cardsOf ((showCategory samplePlatform siteManifest sitePage "gaming").categories.getD [])
      = [cardOf samplePlatform { urlItem with site := some "harisatif" },
         cardOf samplePlatform markerItem] :=
  showCategory_cards samplePlatform siteManifest sitePage "gaming"
    [{ id := some "videos", title := some "Videos", items := some [videoItem] }] []
    { id := some "gaming",
      items := some [otherSiteItem, { urlItem with site := some "harisatif" }, markerItem] }
    [Node.text "Category not found."] rfl rfl rfl (by decide)

/-- C6 fails as stated: on a page that is not under `/sites/<name>/` there is no current
site, and an item tagged with a site is rendered although its site is neither absent nor
equal to the current site. -/
theorem showCategory_renders_other_site_counterexample :
    getCurrentSiteName rootPage.pathname = none ∧
    otherSiteItem.site = some "other" ∧
    cardsOf ((showCategory samplePlatform otherSiteManifest rootPage "gaming").categories.getD [])
      = [cardOf samplePlatform videoItem, cardOf samplePlatform otherSiteItem] := by
  decide

/-- C7: on a page that has the dropdown, after `renderCategoryDropdown` the dropdown holds
exactly one option per category, in manifest order, the i-th with the i-th category's id
as value and its title, or its id when it has no title, as label, whatever options it
held before. -/
theorem renderCategoryDropdown_options (cats : List Category) (page : Page) (old : Select)
    (h : page.categorySelect = some old) :
    ∃ sel, (renderCategoryDropdown cats page).categorySelect = some sel ∧
      sel.options.length = cats.length ∧
      ∀ i c, cats.get? i = some c →
        sel.options.get? i
          = some { value := c.id, textContent := if truthy c.title then c.title else c.id } := by
  let opts : List SelectOption :=
    cats.map (fun cat => { value := cat.id, textContent := jsOr cat.title cat.id })
  refine ⟨{ options := opts, value := opts.head?.bind (fun o => o.value),
            changeListeners := old.changeListeners + 1 }, ?_, ?_, ?_⟩
  · simp only [renderCategoryDropdown, h]
  · simp [opts]
  · intro i c hi
    simp only [opts, List.get?_eq_getElem?, List.getElem?_map] at hi ⊢
    rw [hi]
    rfl

theorem renderCategoryDropdown_options_witness :
    ∃ sel, (renderCategoryDropdown (siteManifest.categories.getD []) rootPage).categorySelect
        = some sel ∧
      sel.options.length = (siteManifest.categories.getD []).length ∧
      ∀ i c, (siteManifest.categories.getD []).get? i = some c →
        sel.options.get? i
          = some { value := c.id, textContent := if truthy c.title then c.title else c.id } :=
  renderCategoryDropdown_options (siteManifest.categories.getD []) rootPage
    { options := [{ value := some "old", textContent := some "Old" }] } rfl

theorem isChannelForSite_eq (pathname : String) (it : Item) :
    isChannelForSite (getCurrentSiteName pathname) it
      = decide (it.type = some "channel" ∧ siteVisible (getCurrentSiteName pathname) it) := by
  have h := not_skippedForSite_eq pathname it
  have h2 : (!truthy it.site || !truthy (getCurrentSiteName pathname)
      || decide (it.site = getCurrentSiteName pathname))
      = !skippedForSite (getCurrentSiteName pathname) it := by
    unfold skippedForSite
    cases truthy it.site <;> cases truthy (getCurrentSiteName pathname) <;>
      by_cases he : it.site = getCurrentSiteName pathname <;> simp [he]
  unfold isChannelForSite
  rw [h2, h]
  by_cases ht : it.type = some "channel" <;> simp [ht]

theorem findChannelItem_eq_find (currentSite : Option String) (cats : List Category) :
    findChannelItem currentSite cats
      = (cats.flatMap (fun c => c.items.getD [])).find? (isChannelForSite currentSite) := by
  induction cats with
  | nil => rfl
  | cons c rest ih =>
    unfold findChannelItem
    rw [List.flatMap_cons, List.find?_append]
    cases hf : (c.items.getD []).find? (isChannelForSite currentSite) with
    | none => simp [ih]
    | some it => simp

/-- C9 (amended): on a page that has both the embed container and the banner container,
`tryLoadChannelEmbed` leaves in the banner container the banner of the first item, in
category order then item order, whose type is `channel` and that carries no site (absent
or empty), or is shown on a page without a current site, or whose site equals the
current site; when there is no such item the banner container is emptied. So a banner is
rendered if and only if such an item exists. -/
theorem tryLoadChannelEmbed_banner (pf : Platform) (data : Manifest) (page : Page)
    (cats : List Category) (embedOld bannerOld : List Node)
    (he : page.channelEmbedContainer = some embedOld)
    (hb : page.channelBannerContainer = some bannerOld)
    (hcats : data.categories = some cats) :
    (tryLoadChannelEmbed pf data page).channelBannerContainer
      = some (match (cats.flatMap (fun c => c.items.getD [])).find?
            (fun it => decide (it.type = some "channel" ∧
              siteVisible (getCurrentSiteName page.pathname) it)) with
          | some it => [Node.banner (bannerOf pf it)]
          | none => []) ∧
    ((∃ it ∈ cats.flatMap (fun c => c.items.getD []),
        it.type = some "channel" ∧ siteVisible (getCurrentSiteName page.pathname) it) ↔
      ∃ b, (tryLoadChannelEmbed pf data page).channelBannerContainer = some [Node.banner b]) := by
  have hP : isChannelForSite (getCurrentSiteName page.pathname)
      = (fun it => decide (it.type = some "channel" ∧
          siteVisible (getCurrentSiteName page.pathname) it)) :=
    funext (isChannelForSite_eq page.pathname)
  have hfind := findChannelItem_eq_find (getCurrentSiteName page.pathname) cats
  rw [hP] at hfind
  have hmain : (tryLoadChannelEmbed pf data page).channelBannerContainer
      = some (match (cats.flatMap (fun c => c.items.getD [])).find?
            (fun it => decide (it.type = some "channel" ∧
              siteVisible (getCurrentSiteName page.pathname) it)) with
          | some it => [Node.banner (bannerOf pf it)]
          | none => []) := by
    unfold tryLoadChannelEmbed
    rw [he, hcats]
    simp only [hfind]
    cases (cats.flatMap (fun c => c.items.getD [])).find?
      (fun it => decide (it.type = some "channel" ∧
        siteVisible (getCurrentSiteName page.pathname) it)) <;> simp [hb]
  refine ⟨hmain, ?_⟩
  rw [hmain]
  constructor
  · rintro ⟨it, hmem, hit⟩
    cases hf : (cats.flatMap (fun c => c.items.getD [])).find?
      (fun it => decide (it.type = some "channel" ∧
        siteVisible (getCurrentSiteName page.pathname) it)) with
    | none =>
      have := List.find?_eq_none.mp hf it hmem
      simp [hit] at this
    | some x => exact ⟨bannerOf pf x, rfl⟩
  · rintro ⟨b, hbanner⟩
    cases hf : (cats.flatMap (fun c => c.items.getD [])).find?
      (fun it => decide (it.type = some "channel" ∧
        siteVisible (getCurrentSiteName page.pathname) it)) with
    | none => rw [hf] at hbanner; simp at hbanner
    | some x =>
      have h1 := List.find?_some hf
      have h2 := List.mem_of_find?_eq_some hf
      exact ⟨x, h2, by simpa using h1⟩

theorem tryLoadChannelEmbed_banner_witness :
    (tryLoadChannelEmbed samplePlatform siteManifest sitePage).channelBannerContainer
      = some [Node.banner (bannerOf samplePlatform { urlItem with site := some "harisatif" })] :=
  (tryLoadChannelEmbed_banner samplePlatform siteManifest sitePage
    (siteManifest.categories.getD []) [] [Node.text "stale"] rfl rfl rfl).1.trans (by decide)

/-- C9 fails as stated: on a page that is not under `/sites/<name>/` there is no current
site, and a banner is rendered for a channel item whose site is neither absent nor equal
to the current site, the only channel item of the manifest. -/
theorem tryLoadChannelEmbed_other_site_counterexample :
    getCurrentSiteName rootPage.pathname = none ∧
    (∀ it ∈ (otherSiteManifest.categories.getD []).flatMap (fun c => c.items.getD []),
      ¬ (it.type = some "channel" ∧
        (it.site = none ∨ it.site = getCurrentSiteName rootPage.pathname))) ∧
    (tryLoadChannelEmbed samplePlatform otherSiteManifest rootPage).channelBannerContainer
      = some [Node.banner (bannerOf samplePlatform otherSiteItem)] := by
  decide

/-! ## `main`: the arguments -/

theorem matchFlag_some (a name value : String) (h : matchFlag a = some (name, value)) :
    a = "--" ++ name ++ "=" ++ value := by
  unfold matchFlag at h
  split at h
  · rename_i rest hdata
    split at h
    · rename_i val hdrop
      split at h
      · simp only [Option.some.injEq, Prod.mk.injEq] at h
        have hrest : rest = rest.takeWhile isFlagNameChar ++ rest.dropWhile isFlagNameChar :=
          (List.takeWhile_append_dropWhile _ _).symm
        rw [hdrop] at hrest
        apply String.ext
        rw [hdata, ← h.1, ← h.2]
        simp only [String.data_append]
        show '-' :: '-' :: rest = ['-', '-'] ++ _ ++ ['='] ++ val
        simp only [List.cons_append, List.nil_append, List.append_assoc]
        rw [← hrest]
      · simp at h
    · simp at h
  · simp at h

theorem optsGet_some (argv : List String) (name v : String) (h : optsGet argv name = some v) :
    ("--" ++ name ++ "=" ++ v) ∈ argv := by
  unfold optsGet at h
  cases hf : (argv.filterMap matchFlag).reverse.find? (fun kv => kv.1 == name) with
  | none => rw [hf] at h; simp at h
  | some kv =>
    rw [hf] at h
    simp only [Option.map_some', Option.some.injEq] at h
    have hp := List.find?_some hf
    have hmem := List.mem_of_find?_eq_some hf
    rw [List.mem_reverse, List.mem_filterMap] at hmem
    obtain ⟨a, ha, hm⟩ := hmem
    have hk : kv = (name, v) := by
      have h1 : kv.1 = name := by simpa using hp
      exact Prod.ext h1 h
    rw [hk] at hm
    rw [← matchFlag_some a name v hm]
    exact ha

theorem not_truthy_optsGet (argv : List String) (name : String)
    (h : ∀ v, v ≠ "" → ("--" ++ name ++ "=" ++ v) ∉ argv) : truthy (optsGet argv name) = false := by
  cases ho : optsGet argv name with
  | none => rfl
  | some v =>
    by_cases hv : v = ""
    · simp [truthy, hv]
    · exact absurd (optsGet_some argv name v ho) (h v hv)

theorem flag_append (name v : String) (lit : String) (h : lit.data = "--".data ++ name.data ++ "=".data) :
    "--" ++ name ++ "=" ++ v = lit ++ v := by
  apply String.ext
  simp only [String.data_append, h]

/-- C8: when no argument is `--channel=<value>` with a non-empty value, or no argument is
`--file=<value>` with a non-empty value, `main` exits with code 1 and makes no
file-system call: the manifest file is neither read nor written. -/
theorem main_usage_exit (env : Env)
    (h : (∀ v, v ≠ "" → ("--channel=" ++ v) ∉ env.argv) ∨
      (∀ v, v ≠ "" → ("--file=" ++ v) ∉ env.argv)) :
    main env = { exitCode := 1, fsOps := [] } := by
  have hor : truthy (optsGet env.argv "channel") = false ∨ truthy (optsGet env.argv "file") = false := by
    rcases h with h | h
    · left
      apply not_truthy_optsGet
      intro v hv
      rw [flag_append "channel" v "--channel=" rfl]
      exact h v hv
    · right
      apply not_truthy_optsGet
      intro v hv
      rw [flag_append "file" v "--file=" rfl]
      exact h v hv
  unfold main
  rcases hor with hc | hf
  · simp [hc]
  · simp [hf]

theorem main_usage_exit_witness :
    main (bareEnv ["--file=./categories.json", "--channel=", "--apiKey=k"])
      = { exitCode := 1, fsOps := [] } :=
  main_usage_exit (bareEnv ["--file=./categories.json", "--channel=", "--apiKey=k"])
    (Or.inl (fun v hv hmem => by
      have hd : ∀ s ∈ ["--file=./categories.json", "--channel=", "--apiKey=k"],
          ("--channel=" ++ v).data ≠ String.data s := by
        intro s hs
        simp only [List.mem_cons, List.mem_singleton, List.not_mem_nil, or_false] at hs
        have hv2 : v.data ≠ [] := fun e => hv (String.ext e)
        rcases hs with hs | hs | hs <;> subst hs <;> intro he <;>
          simp only [String.data_append] at he
        · exact absurd (congrArg (fun l => l.get? 2) he) (by simp)
        · have hlen := congrArg List.length he
          simp only [List.length_append] at hlen
          have : v.data.length = 0 := by
            have h10 : "--channel=".data.length = 10 := rfl
            omega
          exact hv2 (List.length_eq_zero.mp this)
        · exact absurd (congrArg (fun l => l.get? 2) he) (by simp)
      exact hd _ hmem rfl))

/-! ## `main`: the HTML-scraping step -/

theorem matchIdAt_some (key s id : List Char) (h : matchIdAt key s = some id) :
    ∃ body, body ≠ [] ∧ id = 'U' :: 'C' :: body := by
  unfold matchIdAt at h
  split at h
  · split at h
    · split at h
      · split at h
        · split at h
          · rename_i r2 _ _ _ hne
            exact ⟨_, hne, (Option.some.inj h).symm⟩
          · simp at h
        · simp at h
      · simp at h
    · simp at h
  · simp at h

theorem searchId_some (key s id : List Char) (h : searchId key s = some id) :
    ∃ body, body ≠ [] ∧ id = 'U' :: 'C' :: body := by
  induction s with
  | nil => simp [searchId] at h
  | cons c cs ih =>
    unfold searchId at h
    cases hm : matchIdAt key (c :: cs) with
    | some x =>
      rw [hm] at h
      simp only [Option.some.injEq] at h
      rw [← h]
      exact matchIdAt_some key (c :: cs) x hm
    | none =>
      rw [hm] at h
      exact ih h

theorem startsWithChars_drop (key rest : List Char) :
    (key ++ rest).drop key.length = rest := by
  simp

theorem dropWhile_ne_quote (body post : List Char) (h : '"' ∉ body) :
    (body ++ '"' :: post).dropWhile (fun c => c != '"') = '"' :: post := by
  induction body with
  | nil => simp
  | cons b bs ih =>
    have hb : b ≠ '"' := fun e => h (by simp [e])
    have hbs : '"' ∉ bs := fun e => h (List.mem_cons_of_mem _ e)
    simp [hb, ih hbs]

theorem takeWhile_ne_quote (body post : List Char) (h : '"' ∉ body) :
    (body ++ '"' :: post).takeWhile (fun c => c != '"') = body := by
  induction body with
  | nil => simp
  | cons b bs ih =>
    have hb : b ≠ '"' := fun e => h (by simp [e])
    have hbs : '"' ∉ bs := fun e => h (List.mem_cons_of_mem _ e)
    simp [hb, ih hbs]

theorem dropWhile_all_append (p : Char → Bool) (ws rest : List Char)
    (h : ∀ c ∈ ws, p c = true) : (ws ++ rest).dropWhile p = rest.dropWhile p := by
  induction ws with
  | nil => rfl
  | cons w ws ih =>
    have hw : p w = true := h w (List.mem_cons_self _ _)
    rw [List.cons_append, List.dropWhile_cons_of_pos hw]
    exact ih (fun c hc => h c (List.mem_cons_of_mem _ hc))

theorem eq_append_of_startsWithChars (key s : List Char) (h : startsWithChars key s = true) :
    s = key ++ s.drop key.length := by
  induction key generalizing s with
  | nil => rfl
  | cons k ks ih =>
    cases s with
    | nil => simp [startsWithChars] at h
    | cons c cs =>
      simp only [startsWithChars, Bool.and_eq_true, beq_iff_eq] at h
      rw [List.cons_append, List.length_cons, List.drop_succ_cons, ← ih cs h.2, h.1]

theorem matchIdAt_of_literalAt (key s body : List Char) (h : literalAt key s body) :
    matchIdAt key s = some ('U' :: 'C' :: body) := by
  obtain ⟨ws1, ws2, post, hs, hws1, hws2, hne, hq⟩ := h
  subst hs
  unfold matchIdAt
  rw [if_pos (startsWithChars_append key _), startsWithChars_drop]
  have h1 : (ws1 ++ ':' :: (ws2 ++ '"' :: 'U' :: 'C' :: (body ++ '"' :: post))).dropWhile
      isJsWhitespace = ':' :: (ws2 ++ '"' :: 'U' :: 'C' :: (body ++ '"' :: post)) := by
    rw [dropWhile_all_append isJsWhitespace ws1 _ hws1, List.dropWhile_cons_of_neg (by decide)]
  have h2 : (ws2 ++ '"' :: 'U' :: 'C' :: (body ++ '"' :: post)).dropWhile isJsWhitespace
      = '"' :: 'U' :: 'C' :: (body ++ '"' :: post) := by
    rw [dropWhile_all_append isJsWhitespace ws2 _ hws2, List.dropWhile_cons_of_neg (by decide)]
  rw [h1]
  simp only
  rw [h2]
  simp only
  rw [dropWhile_ne_quote body post hq, takeWhile_ne_quote body post hq]
  simp [hne]

theorem literalAt_of_matchIdAt (key s id : List Char) (h : matchIdAt key s = some id) :
    ∃ body, id = 'U' :: 'C' :: body ∧ literalAt key s body := by
  unfold matchIdAt at h
  split at h
  · rename_i hstart
    split at h
    · rename_i r1 hr1
      split at h
      · rename_i r2 hr2
        split at h
        · rename_i post hpost
          split at h
          · rename_i hne
            refine ⟨r2.takeWhile (fun c => c != '"'), (Option.some.inj h).symm,
              (s.drop key.length).takeWhile isJsWhitespace, r1.takeWhile isJsWhitespace, post,
              ?_, ?_, ?_, hne, ?_⟩
            · have e1 := eq_append_of_startsWithChars key s hstart
              have e2 := List.takeWhile_append_dropWhile isJsWhitespace (s.drop key.length)
              have e3 := List.takeWhile_append_dropWhile isJsWhitespace r1
              have e4 := List.takeWhile_append_dropWhile (fun c => c != '"') r2
              rw [hr1] at e2
              rw [hr2] at e3
              rw [hpost] at e4
              rw [e4, e3, e2]
              exact e1
            · intro c hc
              exact List.mem_takeWhile_imp hc
            · intro c hc
              exact List.mem_takeWhile_imp hc
            · intro hq
              have := List.mem_takeWhile_imp hq
              simp at this
          · simp at h
        · simp at h
      · simp at h
    · simp at h
  · simp at h

theorem not_occursAt_of_matchIdAt_none (key markup : List Char) (k : Nat)
    (h : matchIdAt key (markup.drop k) = none) : ∀ b, ¬ occursAt key markup k b := by
  intro b hb
  rw [matchIdAt_of_literalAt key (markup.drop k) b hb] at h
  simp at h

theorem not_literalAt_nil (key body : List Char) : ¬ literalAt key [] body := by
  rintro ⟨ws1, ws2, post, hs, -⟩
  have := congrArg List.length hs
  simp at this
  omega

/-- What `searchId` returns: the id of the leftmost match, or nothing when the pattern
matches nowhere. -/
theorem searchId_spec (key s : List Char) :
    (∀ id, searchId key s = some id →
      ∃ n body, id = 'U' :: 'C' :: body ∧ firstOccurrence key s n body) ∧
    (searchId key s = none → noOccurrence key s) := by
  induction s with
  | nil =>
    refine ⟨fun id h => by simp [searchId] at h, fun _ k b hb => ?_⟩
    unfold occursAt at hb
    rw [List.drop_nil] at hb
    exact not_literalAt_nil key b hb
  | cons c cs ih =>
    cases hm : matchIdAt key (c :: cs) with
    | some x =>
      obtain ⟨body, hx, hlit⟩ := literalAt_of_matchIdAt key (c :: cs) x hm
      refine ⟨fun id h => ?_, fun h => ?_⟩
      · have hid : id = x := by
          simp only [searchId, hm, Option.some.injEq] at h
          exact h.symm
        exact ⟨0, body, hid.trans hx, hlit, fun k hk => absurd hk (Nat.not_lt_zero k)⟩
      · simp [searchId, hm] at h
    | none =>
      have hzero : ∀ b, ¬ occursAt key (c :: cs) 0 b :=
        not_occursAt_of_matchIdAt_none key (c :: cs) 0 hm
      have hs : searchId key (c :: cs) = searchId key cs := by
        simp only [searchId, hm]
      rw [hs]
      refine ⟨fun id h => ?_, fun h k b hb => ?_⟩
      · obtain ⟨n, body, hid, hocc, hmin⟩ := ih.1 id h
        refine ⟨n + 1, body, hid, hocc, fun k hk b hb => ?_⟩
        cases k with
        | zero => exact hzero b hb
        | succ k => exact hmin k (Nat.lt_of_succ_lt_succ hk) b hb
      · cases k with
        | zero => exact hzero b hb
        | succ k => exact ih.2 h k b hb

theorem searchId_of_firstOccurrence (key s : List Char) (n : Nat) (body : List Char)
    (h : firstOccurrence key s n body) : searchId key s = some ('U' :: 'C' :: body) := by
  cases hs : searchId key s with
  | none => exact absurd h.1 ((searchId_spec key s).2 hs n body)
  | some id =>
    obtain ⟨n', body', hid, hocc, hmin⟩ := (searchId_spec key s).1 id hs
    have hn : n = n' := by
      rcases Nat.lt_trichotomy n n' with hlt | heq | hgt
      · exact absurd h.1 (hmin n hlt body)
      · exact heq
      · exact absurd hocc (h.2 n' hgt body')
    subst hn
    have e1 := matchIdAt_of_literalAt key (s.drop n) body h.1
    have e2 := matchIdAt_of_literalAt key (s.drop n) body' hocc
    rw [e1] at e2
    rw [hid, ← Option.some.inj e2]

theorem searchId_of_noOccurrence (key s : List Char) (h : noOccurrence key s) :
    searchId key s = none := by
  cases hs : searchId key s with
  | none => rfl
  | some id =>
    obtain ⟨n, body, -, hocc, -⟩ := (searchId_spec key s).1 id hs
    exact absurd hocc (h n body)

theorem updateManifest_snd (pf : Platform) (channelUrl : String) (r : Resolved) (m : Manifest) :
    (updateManifest pf channelUrl r m).2 = true := by
  unfold updateManifest
  by_cases h : (matchLoop pf channelUrl r m).2 = true <;> simp [h]

theorem scrapeStep_of_match (html : String) (r : Resolved) (id : List Char)
    (h : (searchId channelIdKey html.data).orElse (fun _ => searchId externalIdKey html.data)
      = some id)
    (hid : ∃ body, body ≠ [] ∧ id = 'U' :: 'C' :: body) :
    scrapeStep html r =
      { apiChannelId := if truthy r.apiChannelId then r.apiChannelId else some ⟨id⟩
        apiTitle := r.apiTitle
        apiThumbnails := r.apiThumbnails
        uploadsPlaylist := some ("UU" ++ ⟨id.drop 2⟩) } := by
  obtain ⟨body, hne, hbody⟩ := hid
  have ht : truthy (some (⟨id⟩ : String)) = true := by
    simp [truthy, hbody, String.ext_iff]
  have hs : startsWithChars "UC".data id = true := by
    rw [hbody]; rfl
  unfold scrapeStep
  rw [h]
  simp only [ht, hs, Bool.and_self, if_true]
  by_cases ha : truthy r.apiChannelId = true <;> simp [ha]

/-- C10: when the `channelId` pattern matches in the fetched markup, its leftmost match
being `"channelId"`, white space, `:`, white space, `"UC` + body + `"`, or when it matches
nowhere and the leftmost match of the `externalId` pattern is of that shape, the scraping
step sets the uploads-list id to `UU` followed by the matched id `UC` + body without its
first two characters, sets the channel id to the matched id unless one was resolved
earlier, and leaves title and thumbnails alone; when neither pattern matches anywhere
the step leaves all four variables as they were and `main` goes on to load, update and
write the manifest and exits with 0. Every markup is in one of these cases. -/
theorem scrapeStep_spec (html : String) (r : Resolved) :
    (∀ n body, firstOccurrence channelIdKey html.data n body →
      scrapeStep html r =
        { apiChannelId :=
            if truthy r.apiChannelId then r.apiChannelId else some ⟨'U' :: 'C' :: body⟩
          apiTitle := r.apiTitle
          apiThumbnails := r.apiThumbnails
          uploadsPlaylist := some ("UU" ++ ⟨('U' :: 'C' :: body).drop 2⟩) }) ∧
    (∀ n body, noOccurrence channelIdKey html.data →
      firstOccurrence externalIdKey html.data n body →
      scrapeStep html r =
        { apiChannelId :=
            if truthy r.apiChannelId then r.apiChannelId else some ⟨'U' :: 'C' :: body⟩
          apiTitle := r.apiTitle
          apiThumbnails := r.apiThumbnails
          uploadsPlaylist := some ("UU" ++ ⟨('U' :: 'C' :: body).drop 2⟩) }) ∧
    (noOccurrence channelIdKey html.data → noOccurrence externalIdKey html.data →
      scrapeStep html r = r ∧
      ∀ (env : Env) (channelUrl file jsonText : String) (parsedUrl : URL) (data : Manifest),
        optsGet env.argv "channel" = some channelUrl → channelUrl ≠ "" →
        optsGet env.argv "file" = some file → file ≠ "" →
        env.files (env.resolve file) = some jsonText → env.hasFetch = true →
        env.pf.parseURL channelUrl = some parsedUrl →
        truthy (apiResolved env parsedUrl).uploadsPlaylist = false →
        env.net.page channelUrl = .ok html → env.parseJSON jsonText = some data →
        main env =
          { exitCode := 0
            fsOps := [FsOp.existsSync (env.resolve file), FsOp.readFileSync (env.resolve file),
              FsOp.writeFileSync (env.resolve file)
                (env.stringify
                  (updateManifest env.pf channelUrl (apiResolved env parsedUrl) data).1)] }) ∧
    (∀ key, (∃ n body, firstOccurrence key html.data n body) ∨ noOccurrence key html.data) := by
  refine ⟨?_, ?_, ?_, ?_⟩
  · intro n body h
    have hs := searchId_of_firstOccurrence channelIdKey html.data n body h
    obtain ⟨_, _, _, _, _, _, hne, _⟩ := h.1
    exact scrapeStep_of_match html r ('U' :: 'C' :: body) (by rw [hs]; rfl) ⟨body, hne, rfl⟩
  · intro n body hno h
    have h1 := searchId_of_noOccurrence channelIdKey html.data hno
    have h2 := searchId_of_firstOccurrence externalIdKey html.data n body h
    obtain ⟨_, _, _, _, _, _, hne, _⟩ := h.1
    exact scrapeStep_of_match html r ('U' :: 'C' :: body) (by rw [h1, h2]; rfl)
      ⟨body, hne, rfl⟩
  · intro hno1 hno2
    have h1 := searchId_of_noOccurrence channelIdKey html.data hno1
    have h2 := searchId_of_noOccurrence externalIdKey html.data hno2
    have hstep : scrapeStep html r = r := by
      unfold scrapeStep
      rw [h1, h2]
      rfl
    refine ⟨hstep, ?_⟩
    intro env channelUrl file jsonText parsedUrl data hch hchne hfile hfne hfiles hfetch hparse
      hup hpage hjson
    have hstep0 : scrapeStep html (apiResolved env parsedUrl) = apiResolved env parsedUrl := by
      unfold scrapeStep
      rw [h1, h2]
      rfl
    have hupd := updateManifest_snd env.pf channelUrl (apiResolved env parsedUrl) data
    unfold main
    simp [hch, hfile, truthy, hchne, hfne, hfiles, hfetch, hparse, hup, hpage, hstep0, hjson, hupd]
  · intro key
    cases hs : searchId key html.data with
    | none => exact Or.inr ((searchId_spec key html.data).2 hs)
    | some id =>
      obtain ⟨n, body, -, hfirst⟩ := (searchId_spec key html.data).1 id hs
      exact Or.inl ⟨n, body, hfirst⟩

theorem scrapeStep_spec_witness :
    scrapeStep sampleHtml { apiTitle := some "Haris Atif" } =
      { apiChannelId := some "UCabc123"
        apiTitle := some "Haris Atif"
        apiThumbnails := none
        uploadsPlaylist := some "UUabc123" } ∧
    main scrapeEnv =
      { exitCode := 0
        fsOps := [FsOp.existsSync "categories.json", FsOp.readFileSync "categories.json",
          FsOp.writeFileSync "categories.json" "2 0"] } :=
  ⟨((scrapeStep_spec sampleHtml { apiTitle := some "Haris Atif" }).1 39 "abc123".data
      ⟨⟨[' '], [' '], "];</script>".data, by decide, by decide, by decide, by decide, by decide⟩,
        fun k hk => not_occursAt_of_matchIdAt_none channelIdKey sampleHtml.data k
          ((by decide : ∀ j, j < 39 → matchIdAt channelIdKey (sampleHtml.data.drop j) = none)
            k hk)⟩).trans (by decide),
    (((scrapeStep_spec plainHtml {}).2.2.1
      (fun k b => (searchId_spec channelIdKey plainHtml.data).2 (by decide) k b)
      (fun k b => (searchId_spec externalIdKey plainHtml.data).2 (by decide) k b)).2 scrapeEnv
      exampleChannelUrl "categories.json" "manifest text"
      { origin := "https://www.youtube.com", hostname := "www.youtube.com",
        pathname := "/@progamer-sub", searchParams := [] }
      videoManifest (by decide) (by decide) (by decide) (by decide) (by decide) (by decide)
      (by decide) (by decide) rfl (by decide)).trans (by decide)⟩

/-! ## `main`: the persist step -/

/-- C11: the manifest update always ends with `updated = true`; so `main` never exits
with code 7, and a run that reads the manifest file and parses it to a manifest writes
the updated manifest to that file and exits with code 0. -/
theorem main_never_exits_nothing_updated (env : Env) :
    (∀ (pf : Platform) (channelUrl : String) (r : Resolved) (m : Manifest),
      (updateManifest pf channelUrl r m).2 = true) ∧
    (main env).exitCode ≠ 7 ∧
    (∀ path text data, FsOp.readFileSync path ∈ (main env).fsOps → env.files path = some text →
      env.parseJSON text = some data →
      (main env).exitCode = 0 ∧
      ∃ channelUrl r, optsGet env.argv "channel" = some channelUrl ∧
        (main env).fsOps = [FsOp.existsSync path, FsOp.readFileSync path,
          FsOp.writeFileSync path (env.stringify (updateManifest env.pf channelUrl r data).1)]) := by
  refine ⟨updateManifest_snd, ?_, ?_⟩
  · unfold main
    simp only []
    repeat' split
    all_goals simp_all [updateManifest_snd]
  · intro path text data hmem hfile hjson
    unfold main at hmem ⊢
    simp only [] at hmem ⊢
    repeat' split at hmem
    all_goals simp_all [updateManifest_snd]
    cases hc : optsGet env.argv "channel" with
    | none => simp_all [truthy]
    | some c => exact ⟨c, rfl, _, rfl⟩

theorem main_never_exits_nothing_updated_witness :
    (main scrapeEnv).exitCode = 0 :=
  ((main_never_exits_nothing_updated scrapeEnv).2.2 "categories.json" "manifest text"
    videoManifest (by decide) (by decide) (by decide)).1

/-! ## The manifest update: what it leaves alone -/

theorem applyResolved_frame (r : Resolved) (it : Item) :
    (applyResolved r it).url = it.url ∧ (applyResolved r it).type = it.type ∧
    (applyResolved r it).site = it.site ∧ (applyResolved r it).thumbnail = it.thumbnail ∧
    (applyResolved r it).description = it.description ∧
    (applyResolved r it).embed = it.embed := by
  unfold applyResolved
  cases r.apiThumbnails <;> cases r.uploadsPlaylist <;> dsimp only <;> split_ifs <;>
    exact ⟨rfl, rfl, rfl, rfl, rfl, rfl⟩

theorem itemKept_refl (x : Item) : itemKept x x :=
  ⟨rfl, rfl, rfl, rfl, rfl, rfl, fun _ => rfl⟩

theorem itemKept_visitItem (pf : Platform) (w : String) (r : Resolved) (x : Item) :
    itemKept x (visitItem pf w r x).1 := by
  by_cases ht : x.type = some "channel"
  · have h1 := applyResolved_frame r x
    have h2 := applyResolved_frame r (applyResolved r x)
    have hnot : (x.type ≠ some "channel" → ∀ y : Item, y = x) := fun h => absurd ht h
    unfold visitItem
    rw [if_neg (not_not.mpr ht)]
    dsimp only
    by_cases hu : urlMatches pf w x = true
    · rw [if_pos hu]
      dsimp only
      split
      · exact ⟨h2.1.trans h1.1, h2.2.1.trans h1.2.1, h2.2.2.1.trans h1.2.2.1,
          h2.2.2.2.1.trans h1.2.2.2.1, h2.2.2.2.2.1.trans h1.2.2.2.2.1,
          h2.2.2.2.2.2.trans h1.2.2.2.2.2, fun h => hnot h _⟩
      · exact ⟨h1.1, h1.2.1, h1.2.2.1, h1.2.2.2.1, h1.2.2.2.2.1, h1.2.2.2.2.2, fun h => hnot h _⟩
    · rw [if_neg hu]
      dsimp only
      split
      · exact ⟨h1.1, h1.2.1, h1.2.2.1, h1.2.2.2.1, h1.2.2.2.2.1, h1.2.2.2.2.2, fun h => hnot h _⟩
      · exact itemKept_refl x
  · rw [visitItem_of_not_channel pf w r x ht]
    exact itemKept_refl x

theorem forall₂_itemKept_refl (items : List Item) : List.Forall₂ itemKept items items := by
  induction items with
  | nil => exact List.Forall₂.nil
  | cons x xs ih => exact List.Forall₂.cons (itemKept_refl x) ih

theorem itemKept_visitItems (pf : Platform) (w : String) (r : Resolved) (items : List Item) :
    List.Forall₂ itemKept items (visitItems pf w r items).1 := by
  induction items with
  | nil => exact List.Forall₂.nil
  | cons x xs ih =>
    unfold visitItems
    dsimp only
    split
    · exact List.Forall₂.cons (itemKept_visitItem pf w r x) (forall₂_itemKept_refl xs)
    · exact List.Forall₂.cons (itemKept_visitItem pf w r x) ih

theorem categoryKept_refl (c : Category) : categoryKept c c :=
  ⟨rfl, rfl, Iff.rfl, forall₂_itemKept_refl _⟩

theorem forall₂_categoryKept_refl (cats : List Category) :
    List.Forall₂ categoryKept cats cats := by
  induction cats with
  | nil => exact List.Forall₂.nil
  | cons x xs ih => exact List.Forall₂.cons (categoryKept_refl x) ih

theorem categoryKept_visitCategories (pf : Platform) (w : String) (r : Resolved)
    (cats : List Category) : List.Forall₂ categoryKept cats (visitCategories pf w r cats).1 := by
  induction cats with
  | nil => exact List.Forall₂.nil
  | cons c rest ih =>
    unfold visitCategories
    cases hc : c.items with
    | none =>
      dsimp only
      exact List.Forall₂.cons (categoryKept_refl c) ih
    | some items =>
      have hk : categoryKept c { c with items := some (visitItems pf w r items).1 } := by
        refine ⟨rfl, rfl, by simp [hc], ?_⟩
        rw [hc]
        exact itemKept_visitItems pf w r items
      dsimp only
      split
      · exact List.Forall₂.cons hk (forall₂_categoryKept_refl rest)
      · exact List.Forall₂.cons hk ih

/-- C12 (amended): for a manifest whose categories is a list, the manifest update keeps
`sites`, never removes or reorders a category or an item, and never changes an item
whose type is not `channel`: after the in-place updates every category has its id,
its title and its items at the same positions, each item with the same `url`, `type`,
`site`, `thumbnail`, `description` and `embed`, and the non-channel items identical in
every field. The output is that list, or that list with one new item at the end of its
first category, or, when the manifest has no category, the single new category
`channels`/`Channels` holding the new item. -/
theorem updateManifest_frame (pf : Platform) (channelUrl : String) (r : Resolved)
    (m : Manifest) (cats : List Category) (hm : m.categories = some cats) :
    (updateManifest pf channelUrl r m).1.sites = m.sites ∧
    ∃ mid, List.Forall₂ categoryKept cats mid ∧
      ((updateManifest pf channelUrl r m).1.categories = some mid ∨
       (∃ c cs, mid = c :: cs ∧
          (updateManifest pf channelUrl r m).1.categories
            = some ({ id := c.id, title := c.title,
                      items := some (c.items.getD [] ++ [newItem channelUrl r]) } :: cs)) ∨
       (cats = [] ∧
          (updateManifest pf channelUrl r m).1.categories
            = some [{ id := some "channels", title := some "Channels",
                      items := some [newItem channelUrl r] }])) := by
  have hk := categoryKept_visitCategories pf (normalizeUrl pf channelUrl) r cats
  by_cases hv : (visitCategories pf (normalizeUrl pf channelUrl) r cats).2 = true
  · refine ⟨by simp [updateManifest, matchLoop, hm, hv], _, hk, Or.inl ?_⟩
    simp [updateManifest, matchLoop, hm, hv]
  · simp only [Bool.not_eq_true] at hv
    refine ⟨by simp [updateManifest, matchLoop, hm, hv, appendStep]; split <;> rfl, _, hk, Or.inr ?_⟩
    cases hw : (visitCategories pf (normalizeUrl pf channelUrl) r cats).1 with
    | nil =>
      right
      rw [hw] at hk
      cases hk
      refine ⟨rfl, ?_⟩
      simp [updateManifest, matchLoop, hm, hv, hw, appendStep, channelsCategory]
    | cons c cs =>
      left
      refine ⟨c, cs, rfl, ?_⟩
      simp [updateManifest, matchLoop, hm, hv, hw, appendStep]

theorem updateManifest_frame_witness :
    (updateManifest samplePlatform exampleChannelUrl exampleResolved twoChannelManifest).1
      = { sites := none
          categories := some
            [{ id := some "gaming", title := some "Gaming",
               items := some [videoItem, applyResolved exampleResolved markerItem, urlItem] }] } ∧
    ((updateManifest samplePlatform exampleChannelUrl exampleResolved twoChannelManifest).1.sites
        = twoChannelManifest.sites ∧
      ∃ mid, List.Forall₂ categoryKept (twoChannelManifest.categories.getD []) mid ∧
      ((updateManifest samplePlatform exampleChannelUrl exampleResolved
            twoChannelManifest).1.categories = some mid ∨
       (∃ c cs, mid = c :: cs ∧
          (updateManifest samplePlatform exampleChannelUrl exampleResolved
              twoChannelManifest).1.categories
            = some ({ id := c.id, title := c.title,
                      items := some (c.items.getD [] ++
                        [newItem exampleChannelUrl exampleResolved]) } :: cs)) ∨
       (twoChannelManifest.categories.getD [] = [] ∧
          (updateManifest samplePlatform exampleChannelUrl exampleResolved
              twoChannelManifest).1.categories
            = some [{ id := some "channels", title := some "Channels",
                      items := some [newItem exampleChannelUrl exampleResolved] }]))) :=
  ⟨by decide,
    updateManifest_frame samplePlatform exampleChannelUrl exampleResolved twoChannelManifest
      (twoChannelManifest.categories.getD []) rfl⟩

/-- C12 fails as stated: for a manifest whose categories is the empty list the update adds
a category, `channels`/`Channels`, and not only an item. -/
theorem updateManifest_adds_category_counterexample :
    emptyManifest.categories = some [] ∧
    (updateManifest samplePlatform exampleChannelUrl exampleResolved emptyManifest).1.categories
      = some [{ id := some "channels", title := some "Channels",
                items := some [newItem exampleChannelUrl exampleResolved] }] := by
  decide

/-! ## `normalizeUrl` applied twice -/

theorem dropWhile_idem (p : Char → Bool) (l : List Char) :
    (l.dropWhile p).dropWhile p = l.dropWhile p := by
  induction l with
  | nil => rfl
  | cons c cs ih =>
    by_cases hc : p c = true
    · rw [List.dropWhile_cons_of_pos hc]; exact ih
    · rw [List.dropWhile_cons_of_neg hc, List.dropWhile_cons_of_neg hc]

theorem stripTrailingSlashes_idem (s : String) :
    stripTrailingSlashes (stripTrailingSlashes s) = stripTrailingSlashes s := by
  unfold stripTrailingSlashes
  simp only [List.reverse_reverse, dropWhile_idem]

theorem dropWhile_append_dropWhile (p : Char → Bool) (d a : List Char) :
    ((d.dropWhile p) ++ a).dropWhile p
      = if d.dropWhile p = [] then a.dropWhile p else (d.dropWhile p) ++ a := by
  induction d with
  | nil => simp
  | cons c cs ih =>
    by_cases hc : p c = true
    · rw [List.dropWhile_cons_of_pos hc]; exact ih
    · rw [List.dropWhile_cons_of_neg hc]
      simp only [List.cons_append, reduceCtorEq, if_false]
      rw [List.dropWhile_cons_of_neg hc]

theorem stripTrailingSlashes_append_strip (a b : String)
    (ha : stripTrailingSlashes a = a) :
    stripTrailingSlashes (a ++ stripTrailingSlashes b) = a ++ stripTrailingSlashes b := by
  have ha' : (a.data.reverse.dropWhile (fun c => c == '/')).reverse = a.data := by
    have := congrArg String.data ha
    simpa [stripTrailingSlashes] using this
  apply String.ext
  simp only [stripTrailingSlashes, String.data_append, List.reverse_append, List.reverse_reverse]
  rw [dropWhile_append_dropWhile]
  split
  · rename_i h
    rw [h, ha']
    simp
  · simp

/-- C13 (amended): `normalizeUrl(normalizeUrl(u)) = normalizeUrl(u)` when the URL
constructor rejects `normalizeUrl(u)` (and the origin of `u`, when `u` is accepted, does
not end in a slash, as no origin does), and when the constructor accepts both `u` and
`normalizeUrl(u)` and gives them the same origin and paths that differ only by trailing
slashes, as it does for `http` and `https` URLs. -/
theorem normalizeUrl_idempotent_when_stable (pf : Platform) (u : String) :
    (pf.parseURL (normalizeUrl pf u) = none →
      (∀ x, pf.parseURL u = some x → stripTrailingSlashes x.origin = x.origin) →
      normalizeUrl pf (normalizeUrl pf u) = normalizeUrl pf u) ∧
    (∀ x y, pf.parseURL u = some x → pf.parseURL (normalizeUrl pf u) = some y →
      y.origin = x.origin →
      stripTrailingSlashes y.pathname = stripTrailingSlashes x.pathname →
      normalizeUrl pf (normalizeUrl pf u) = normalizeUrl pf u) := by
  constructor
  · intro hv horigin
    have houter : normalizeUrl pf (normalizeUrl pf u) = stripTrailingSlashes (normalizeUrl pf u) := by
      generalize normalizeUrl pf u = v at hv
      simp only [normalizeUrl, hv]
    rw [houter]
    cases hp : pf.parseURL u with
    | none =>
      simp only [normalizeUrl, hp]
      exact stripTrailingSlashes_idem u
    | some x =>
      simp only [normalizeUrl, hp]
      exact stripTrailingSlashes_append_strip x.origin x.pathname (horigin x hp)
  · intro x y hx hy ho hpath
    have houter : normalizeUrl pf (normalizeUrl pf u)
        = y.origin ++ stripTrailingSlashes y.pathname := by
      generalize normalizeUrl pf u = v at hy
      simp only [normalizeUrl, hy]
    rw [houter, ho, hpath]
    simp only [normalizeUrl, hx]

theorem normalizeUrl_idempotent_when_stable_witness :
    normalizeUrl samplePlatform
        (normalizeUrl samplePlatform "https://www.youtube.com/@progamer-sub/?feature=x")
      = normalizeUrl samplePlatform "https://www.youtube.com/@progamer-sub/?feature=x" ∧
    normalizeUrl samplePlatform (normalizeUrl samplePlatform "youtube.com/@progamer-sub//")
      = normalizeUrl samplePlatform "youtube.com/@progamer-sub//" ∧
    normalizeUrl samplePlatform (normalizeUrl samplePlatform "mailto:someone@example.com")
      = normalizeUrl samplePlatform "mailto:someone@example.com" :=
  ⟨(normalizeUrl_idempotent_when_stable samplePlatform
      "https://www.youtube.com/@progamer-sub/?feature=x").2
      { origin := "https://www.youtube.com", hostname := "www.youtube.com",
        pathname := "/@progamer-sub/", searchParams := [("feature", "x")] }
      { origin := "https://www.youtube.com", hostname := "www.youtube.com",
        pathname := "/@progamer-sub", searchParams := [] }
      (by decide) (by decide) rfl (by decide),
    (normalizeUrl_idempotent_when_stable samplePlatform "youtube.com/@progamer-sub//").1
      (by decide) (fun x hx => by
        have h : sampleParseURL "youtube.com/@progamer-sub//" = none := by decide
        exact absurd (h.symm.trans hx) (by simp)),
    (normalizeUrl_idempotent_when_stable samplePlatform "mailto:someone@example.com").1
      (by decide) (fun x hx => by
        have h : sampleParseURL "mailto:someone@example.com"
            = some { origin := "null", hostname := "", pathname := "someone@example.com",
                     searchParams := [] } := by decide
        have hx2 : x = { origin := "null", hostname := "", pathname := "someone@example.com",
                         searchParams := [] } := Option.some.inj (hx.symm.trans h)
        subst hx2
        decide)⟩

/-- C13 fails as stated: a URL with an opaque path has the origin `null`, and the string
`null` followed by its path can be a URL again; `urn:isbn:0451450523` is normalised to
`nullisbn:0451450523`, and that string to `null0451450523`. -/
theorem normalizeUrl_not_idempotent_counterexample :
    normalizeUrl samplePlatform "urn:isbn:0451450523" = "nullisbn:0451450523" ∧
    normalizeUrl samplePlatform (normalizeUrl samplePlatform "urn:isbn:0451450523")
      = "null0451450523" ∧
    normalizeUrl samplePlatform (normalizeUrl samplePlatform "urn:isbn:0451450523")
      ≠ normalizeUrl samplePlatform "urn:isbn:0451450523" := by
  decide

end Haris
